import Mathlib

set_option maxHeartbeats 1000000

/-! Shallow embedding of the quizzy live-quiz server core:
`src/server/src/socket/handlers.ts` (socket event handlers) together with
the game-session module it uses (`GameSession`, the session registry and
the timer management). JS `Map`s become insertion-ordered association
lists, objects mutated in place become functional record updates written
back to the registry under the session's game code, and
`setTimeout`/`clearTimeout` become an explicit list of live timer entries
`(timerId, session identity)` carried in the `World` state. Machine
numbers are `Nat`/`Int`; `Date.now()` readings enter as explicit `now`
arguments of the events. -/

inductive GameStatus where
  | waiting
  | question
  | reveal
  | leaderboard
  | finished
deriving Repr, DecidableEq

structure Player where
  id : String
  username : String
  score : Nat
  currentAnswer : Option Int
  answerTimestamp : Option Nat
deriving Repr, DecidableEq

structure QuizRow where
  id : Nat
  title : String
  timer_seconds : Nat
deriving Repr, DecidableEq

structure QuestionRow where
  id : Nat
  quiz_id : Nat
  question_text : String
  order_index : Nat
deriving Repr, DecidableEq

structure OptionRow where
  id : Int
  question_id : Nat
  option_text : String
  is_correct : Bool
  order_index : Nat
deriving Repr, DecidableEq

/-- A question joined with its ordered options (`QuestionWithOptions`). -/
structure QuestionW where
  id : Nat
  quiz_id : Nat
  question_text : String
  order_index : Nat
  options : List OptionRow
deriving Repr, DecidableEq

/-- The read-only quiz database queried once at session construction. -/
structure Db where
  quizzes : List QuizRow
  questions : List QuestionRow
  options : List OptionRow
deriving Repr

structure GameSession where
  /-- Model artifact: JS object identity. Timer callbacks close over the
  session object itself; `sid` lets a fired timer find the object it
  captured even after the registry entry under its code was replaced. -/
  sid : Nat
  gameCode : String
  quizId : Nat
  quizTitle : String
  players : List Player
  currentQuestionIndex : Int
  totalQuestions : Nat
  timerSeconds : Nat
  status : GameStatus
  questionStartTime : Option Nat
  adminSocketId : String
  questions : List QuestionW
  questionResults : List (String × Bool × Nat)
  questionTimer : Option Nat
deriving Repr, DecidableEq

/-- JS `Map.set` keyed by `Player.id`: replace in place, else append. -/
def playersSet (l : List Player) (v : Player) : List Player :=
  if l.any (fun p => p.id == v.id) then
    l.map (fun p => if p.id == v.id then v else p)
  else l ++ [v]

/-- JS `Map.set` on the per-question results map keyed by player id. -/
def qrSet (l : List (String × Bool × Nat)) (k : String) (v : Bool × Nat) :
    List (String × Bool × Nat) :=
  if l.any (fun e => e.1 == k) then
    l.map (fun e => if e.1 == k then (k, v.1, v.2) else e)
  else l ++ [(k, v.1, v.2)]

/-- JS array indexing by a possibly negative index. -/
def listGetI {α : Type} (l : List α) (i : Int) : Option α :=
  if i < 0 then none else l.get? i.toNat

/-- JS truthiness of a nullable timestamp: `null` and `0` are falsy. -/
def truthyTime (o : Option Nat) : Bool :=
  !(o.getD 0 == 0)

/-- JS `String.prototype.toUpperCase` on the ASCII codes used here. -/
def jsUpper (s : String) : String := ⟨s.data.map Char.toUpper⟩

/-- JS `String.prototype.toLowerCase` on the ASCII codes used here. -/
def jsLower (s : String) : String := ⟨s.data.map Char.toLower⟩

/-- Modelled from the spec: the scoring function lives in
`src/server/src/services/scoring.ts`, which is not among the provided
sources. Section 4.1 of the spec: a fixed maximum award for an
instantaneous correct answer decays toward a fixed minimum as elapsed
time approaches the budget, clamped to that band, and a late answer
still receives the minimum award rather than an error. -/
def calculateScore (timeTakenSeconds timeBudgetSeconds : Nat) : Nat :=
  if timeBudgetSeconds == 0 then 100
  else if timeBudgetSeconds ≤ timeTakenSeconds then 100
  else max 100 (1000 - 900 * timeTakenSeconds / timeBudgetSeconds)

/-- The `GameSession` constructor: looks up the quiz, loads its ordered
questions (failing when the quiz is missing or has no questions), then
the options of each question, and initialises every field. The freshly
generated game code and the model identity `sid` are passed in. -/
def GameSession.make (db : Db) (code : String) (quizId : Nat)
    (adminSocketId : String) (sid : Nat) : Except String GameSession :=
  match db.quizzes.find? (fun q => q.id == quizId) with
  | none => .error "Quiz not found"
  | some quiz =>
    let qrows := List.insertionSort (fun a b => a.order_index ≤ b.order_index)
      (db.questions.filter (fun q => q.quiz_id == quizId))
    if qrows.length == 0 then .error "Quiz has no questions"
    else
      let qs := qrows.map (fun q =>
        { id := q.id, quiz_id := q.quiz_id, question_text := q.question_text,
          order_index := q.order_index,
          options := List.insertionSort (fun a b => a.order_index ≤ b.order_index)
            (db.options.filter (fun o => o.question_id == q.id)) : QuestionW })
      .ok {
        sid := sid, gameCode := code, quizId := quizId, quizTitle := quiz.title,
        players := [], currentQuestionIndex := -1, totalQuestions := qs.length,
        timerSeconds := quiz.timer_seconds, status := .waiting,
        questionStartTime := none, adminSocketId := adminSocketId,
        questions := qs, questionResults := [], questionTimer := none }

def GameSession.addPlayer (s : GameSession) (socketId username : String) :
    Except String (GameSession × Player) :=
  if s.status ≠ GameStatus.waiting then .error "Game has already started"
  else if s.players.any (fun p => jsLower p.username == jsLower username) then
    .error "Username already taken"
  else
    let player : Player := { id := socketId, username := username, score := 0,
                             currentAnswer := none, answerTimestamp := none }
    .ok ({ s with players := playersSet s.players player }, player)

def GameSession.removePlayer (s : GameSession) (socketId : String) : GameSession :=
  { s with players := s.players.filter (fun p => !(p.id == socketId)) }

/-- The public payload returned by `startNextQuestion`. -/
structure QuestionPayload where
  questionIndex : Int
  totalQuestions : Nat
  questionText : String
  options : List (Int × String)
  timerSeconds : Nat
deriving Repr, DecidableEq

/-- Source order preserved: the index is incremented first; the run-off
check happens on the already incremented index and does not roll back. -/
def GameSession.startNextQuestion (s : GameSession) (now : Nat) :
    GameSession × Option QuestionPayload :=
  let s1 := { s with currentQuestionIndex := s.currentQuestionIndex + 1 }
  if (s1.totalQuestions : Int) ≤ s1.currentQuestionIndex then (s1, none)
  else
    let s2 := { s1 with status := GameStatus.question,
                        questionStartTime := some now,
                        questionResults := [],
                        players := s1.players.map (fun p =>
                          { p with currentAnswer := none, answerTimestamp := none }) }
    match listGetI s2.questions s2.currentQuestionIndex with
    | none => (s2, none)
    | some q =>
      (s2, some { questionIndex := s2.currentQuestionIndex,
                  totalQuestions := s2.totalQuestions,
                  questionText := q.question_text,
                  options := q.options.map (fun o => (o.id, o.option_text)),
                  timerSeconds := s2.timerSeconds })

def GameSession.submitAnswer (s : GameSession) (socketId : String) (optionId : Int)
    (now : Nat) : GameSession × Bool :=
  if s.status ≠ GameStatus.question then (s, false)
  else
    match s.players.find? (fun p => p.id == socketId) with
    | none => (s, false)
    | some p =>
      if p.currentAnswer ≠ none then (s, false)
      else
        ({ s with players := s.players.map (fun q =>
             if q.id == socketId then
               { q with currentAnswer := some optionId, answerTimestamp := some now }
             else q) }, true)

def GameSession.allPlayersAnswered (s : GameSession) : Bool :=
  s.players.all (fun p => p.currentAnswer.isSome)

/-- Cancel the session's pending deadline timer, if any, removing its
entry from the live-timer list (`clearTimeout`). -/
def clearQuestionTimer (s : GameSession) (timers : List (Nat × Nat)) :
    GameSession × List (Nat × Nat) :=
  match s.questionTimer with
  | some t => ({ s with questionTimer := none }, timers.filter (fun e => !(e.1 == t)))
  | none => (s, timers)

structure PlayerResult where
  username : String
  correct : Bool
  points : Nat
deriving Repr, DecidableEq

structure QuestionEndResult where
  correctOptionId : Int
  playerResults : List PlayerResult
deriving Repr, DecidableEq

/-- Per-player outcome of closing a question: correctness flag and points. -/
def scoreOnEnd (s : GameSession) (correctOptionId : Int) (p : Player) : Bool × Nat :=
  let correct := p.currentAnswer == some correctOptionId
  let points :=
    if correct && truthyTime s.questionStartTime && truthyTime p.answerTimestamp then
      calculateScore ((p.answerTimestamp.getD 0 - s.questionStartTime.getD 0) / 1000)
        s.timerSeconds
    else 0
  (correct, points)

/-- Source order preserved: status is set to `reveal` and the timer is
cancelled before the current question is read; when the index is out of
bounds the source throws a TypeError at that read (the `none` result),
leaving every score unchanged. -/
def GameSession.endQuestion (s : GameSession) (timers : List (Nat × Nat)) :
    (GameSession × List (Nat × Nat)) × Option QuestionEndResult :=
  let s1 := { s with status := GameStatus.reveal }
  let r := clearQuestionTimer s1 timers
  let s2 := r.1
  match listGetI s2.questions s2.currentQuestionIndex with
  | none => ((s2, r.2), none)
  | some q =>
    let correctOptionId :=
      (Option.map (fun o => o.id) (q.options.find? (fun o => o.is_correct))).getD (-1)
    let players2 := s2.players.map (fun p =>
      { p with score := p.score + (scoreOnEnd s2 correctOptionId p).2 })
    let qres := s2.players.foldl (fun acc p =>
      qrSet acc p.id (scoreOnEnd s2 correctOptionId p)) s2.questionResults
    let prs := s2.players.map (fun p =>
      { username := p.username, correct := (scoreOnEnd s2 correctOptionId p).1,
        points := (scoreOnEnd s2 correctOptionId p).2 : PlayerResult })
    (({ s2 with players := players2, questionResults := qres }, r.2),
     some { correctOptionId := correctOptionId, playerResults := prs })

def GameSession.isLastQuestion (s : GameSession) : Bool :=
  decide ((s.totalQuestions : Int) - 1 ≤ s.currentQuestionIndex)

/-- Arm the deadline timer: a fresh timer id is scheduled and the handle
stored, without cancelling any previously armed timer (the source calls
`setTimeout` and overwrites `this.questionTimer`). -/
def GameSession.setQuestionTimer (s : GameSession) (timers : List (Nat × Nat))
    (nextTimerId : Nat) : GameSession × List (Nat × Nat) × Nat :=
  ({ s with questionTimer := some nextTimerId },
   timers ++ [(nextTimerId, s.sid)], nextTimerId + 1)

def GameSession.cleanup (s : GameSession) (timers : List (Nat × Nat)) :
    GameSession × List (Nat × Nat) :=
  clearQuestionTimer s timers

/-- The process-wide registry of active games, keyed by game code. -/
abbrev Reg := List (String × GameSession)

/-- JS `Map.set` on the registry: replace in place, else append. -/
def mapSet (m : Reg) (k : String) (v : GameSession) : Reg :=
  if m.any (fun e => e.1 == k) then m.map (fun e => if e.1 == k then (k, v) else e)
  else m ++ [(k, v)]

def getGameR (m : Reg) (code : String) : Option GameSession :=
  (m.find? (fun e => e.1 == code)).map (fun e => e.2)

def getGameByAdminSocketR (m : Reg) (socketId : String) : Option GameSession :=
  (m.find? (fun e => e.2.adminSocketId == socketId)).map (fun e => e.2)

def getGameByPlayerSocketR (m : Reg) (socketId : String) : Option GameSession :=
  (m.find? (fun e => e.2.players.any (fun p => p.id == socketId))).map (fun e => e.2)

/-- Module-level `createGame`: construct the session (exceptions
propagate, leaving the registry untouched) and then store it under its
code with `activeGames.set` — a single generation, no retry. -/
def createGame (db : Db) (code : String) (quizId : Nat) (adminSocketId : String)
    (sid : Nat) (reg : Reg) : Reg × Except String GameSession :=
  match GameSession.make db code quizId adminSocketId sid with
  | .error e => (reg, .error e)
  | .ok s => (mapSet reg s.gameCode s, .ok s)

/-- The whole observable server state: the registry, the fresh-identity
counter, the live (armed, not yet fired or cancelled) timers tagged with
the session object they captured, and the fresh timer-id counter. -/
structure World where
  reg : Reg
  nextSid : Nat
  timers : List (Nat × Nat)
  nextTimerId : Nat
deriving Repr, DecidableEq

def World.empty : World := { reg := [], nextSid := 0, timers := [], nextTimerId := 0 }

/-- `removeGame`: run `cleanup` (cancelling a pending timer) and delete
the code's registry entry. -/
def removeGameW (w : World) (code : String) : World :=
  match getGameR w.reg code with
  | none => w
  | some g =>
    let timers := match g.questionTimer with
      | some t => w.timers.filter (fun e => !(e.1 == t))
      | none => w.timers
    { w with reg := w.reg.filter (fun e => !(e.1 == code)), timers := timers }

/-- The `handleQuestion` helper: broadcast the payload (no state) and arm
the deadline timer via `setQuestionTimer`. -/
def handleQuestion (w : World) (s : GameSession) : World :=
  let r := s.setQuestionTimer w.timers w.nextTimerId
  { w with reg := mapSet w.reg s.gameCode r.1, timers := r.2.1, nextTimerId := r.2.2 }

inductive CreateOutcome where
  | noToken
  | badToken
  | existing (gameCode : String)
  | created (gameCode : String)
  | failed (msg : String)
deriving Repr, DecidableEq

/-- The `create_game` handler: token checks, the duplicate-admin guard,
then `createGame`; `code` is the value the game-code generator returns. -/
def createGameHandlerW (db : Db) (w : World) (hasToken tokenValid : Bool)
    (quizId : Nat) (socketId : String) (code : String) : World × CreateOutcome :=
  if !hasToken then (w, .noToken)
  else if !tokenValid then (w, .badToken)
  else
    match getGameByAdminSocketR w.reg socketId with
    | some g => (w, .existing g.gameCode)
    | none =>
      match createGame db code quizId socketId w.nextSid w.reg with
      | (reg, .error e) => ({ w with reg := reg }, .failed e)
      | (reg, .ok s) =>
        ({ w with reg := reg, nextSid := w.nextSid + 1 }, .created s.gameCode)

/-- The `join_game` handler: uppercase the code, look the game up,
`addPlayer` (errors are caught, leaving every session unchanged). -/
def joinGameHandlerW (w : World) (socketId gameCode username : String) : World :=
  let code := jsUpper gameCode
  match getGameR w.reg code with
  | none => w
  | some s =>
    match s.addPlayer socketId username with
    | .error _ => w
    | .ok (s2, _) => { w with reg := mapSet w.reg s2.gameCode s2 }

/-- The `start_game` handler: requires an owned session and a non-empty
roster, then `startNextQuestion` and, on a payload, `handleQuestion`.
Note the source checks no status here. -/
def startGameHandlerW (w : World) (socketId : String) (now : Nat) : World :=
  match getGameByAdminSocketR w.reg socketId with
  | none => w
  | some s =>
    if s.players.length == 0 then w
    else
      match s.startNextQuestion now with
      | (s2, none) => { w with reg := mapSet w.reg s2.gameCode s2 }
      | (s2, some _) => handleQuestion { w with reg := mapSet w.reg s2.gameCode s2 } s2

/-- The `submit_answer` handler: on an accepted submission, when all
players have answered, close the question and set status `leaderboard`. -/
def submitAnswerHandlerW (w : World) (socketId : String) (optionId : Int)
    (now : Nat) : World :=
  match getGameByPlayerSocketR w.reg socketId with
  | none => w
  | some s =>
    match s.submitAnswer socketId optionId now with
    | (_, false) => w
    | (s2, true) =>
      if s2.allPlayersAnswered then
        let r := s2.endQuestion w.timers
        let s3 := { r.1.1 with status := GameStatus.leaderboard }
        { w with reg := mapSet w.reg s3.gameCode s3, timers := r.1.2 }
      else { w with reg := mapSet w.reg s2.gameCode s2 }

/-- The `next_question` handler: on the last question finish and remove
the game, otherwise advance and (on a payload) arm the next deadline. -/
def nextQuestionHandlerW (w : World) (socketId : String) (now : Nat) : World :=
  match getGameByAdminSocketR w.reg socketId with
  | none => w
  | some s =>
    if s.isLastQuestion then
      let s2 := { s with status := GameStatus.finished }
      removeGameW { w with reg := mapSet w.reg s2.gameCode s2 } s2.gameCode
    else
      match s.startNextQuestion now with
      | (s2, none) => { w with reg := mapSet w.reg s2.gameCode s2 }
      | (s2, some _) => handleQuestion { w with reg := mapSet w.reg s2.gameCode s2 } s2

/-- The `end_game` handler. -/
def endGameHandlerW (w : World) (socketId : String) : World :=
  match getGameByAdminSocketR w.reg socketId with
  | none => w
  | some s =>
    let s2 := { s with status := GameStatus.finished }
    removeGameW { w with reg := mapSet w.reg s2.gameCode s2 } s2.gameCode

/-- The `disconnect` handler: the admin branch ends and removes the game;
the player branch only removes the player from the roster — it never
consults `allPlayersAnswered` and never closes the question. -/
def disconnectHandlerW (w : World) (socketId : String) : World :=
  match getGameByAdminSocketR w.reg socketId with
  | some s =>
    let s2 := { s with status := GameStatus.finished }
    removeGameW { w with reg := mapSet w.reg s2.gameCode s2 } s2.gameCode
  | none =>
    match getGameByPlayerSocketR w.reg socketId with
    | none => w
    | some s =>
      let s2 := s.removePlayer socketId
      { w with reg := mapSet w.reg s2.gameCode s2 }

/-- A deadline timer firing: the entry leaves the live list; the callback
closed over its session object, so it acts on that object if it is still
registered (an object evicted from the registry is unobservable). The
callback runs `endQuestion` and sets status `leaderboard`, checking no
status first. -/
def timerFiredHandlerW (w : World) (tid : Nat) : World :=
  match w.timers.find? (fun e => e.1 == tid) with
  | none => w
  | some entry =>
    let timers := w.timers.filter (fun e => !(e.1 == tid))
    match (w.reg.find? (fun e => e.2.sid == entry.2)).map (fun e => e.2) with
    | none => { w with timers := timers }
    | some s =>
      let r := GameSession.endQuestion s timers
      let s3 := { r.1.1 with status := GameStatus.leaderboard }
      { w with reg := mapSet w.reg s3.gameCode s3, timers := r.1.2 }

/-- The closed set of inbound events; `now` arguments are the `Date.now()`
readings and `code` the game-code generator's output for that request. -/
inductive Event where
  | create (hasToken tokenValid : Bool) (quizId : Nat) (socketId code : String)
  | join (socketId gameCode username : String)
  | start (socketId : String) (now : Nat)
  | submit (socketId : String) (optionId : Int) (now : Nat)
  | next (socketId : String) (now : Nat)
  | endGameEv (socketId : String)
  | disconnect (socketId : String)
  | timerFired (tid : Nat)
deriving Repr, DecidableEq

def step (db : Db) (w : World) : Event → World
  | .create ht tv q sid code => (createGameHandlerW db w ht tv q sid code).1
  | .join sid gc u => joinGameHandlerW w sid gc u
  | .start sid now => startGameHandlerW w sid now
  | .submit sid oid now => submitAnswerHandlerW w sid oid now
  | .next sid now => nextQuestionHandlerW w sid now
  | .endGameEv sid => endGameHandlerW w sid
  | .disconnect sid => disconnectHandlerW w sid
  | .timerFired t => timerFiredHandlerW w t

def run (db : Db) (w : World) (evs : List Event) : World :=
  evs.foldl (step db) w

def reachable (db : Db) (w : World) : Prop :=
  ∃ evs : List Event, w = run db World.empty evs

/-- A small quiz database for the concrete runs: quiz 1 has two questions,
quiz 2 has none, quiz 3 has a question with no correct option, quiz 4 has
exactly one question. -/
def demoDb : Db := {
  quizzes := [⟨1, "Capitals", 20⟩, ⟨2, "Empty", 15⟩, ⟨3, "Broken", 20⟩, ⟨4, "Solo", 20⟩],
  questions := [⟨10, 1, "Q1", 0⟩, ⟨11, 1, "Q2", 1⟩, ⟨20, 3, "QB", 0⟩, ⟨30, 4, "QS", 0⟩],
  options := [⟨100, 10, "A", true, 0⟩, ⟨101, 10, "B", false, 1⟩,
              ⟨102, 11, "A", false, 0⟩, ⟨103, 11, "B", true, 1⟩,
              ⟨200, 20, "A", false, 0⟩, ⟨201, 20, "B", false, 1⟩,
              ⟨300, 30, "A", true, 0⟩, ⟨301, 30, "B", false, 1⟩] }

/-- Cumulative score of the player with the given socket id, 0 if absent. -/
def scoreOf (s : GameSession) (socketId : String) : Nat :=
  ((s.players.find? (fun p => p.id == socketId)).map (fun p => p.score)).getD 0

/-! Helper lemmas about the association-list operations. -/

lemma mem_mapSet {m : Reg} {k : String} {v : GameSession} {e : String × GameSession}
    (he : e ∈ mapSet m k v) : (e ∈ m ∧ e.1 ≠ k) ∨ e = (k, v) := by
  unfold mapSet at he
  split at he
  · rcases List.mem_map.mp he with ⟨a, ha, hae⟩
    by_cases hk : a.1 = k
    · right
      rw [if_pos (by simp [hk])] at hae
      exact hae.symm
    · left
      rw [if_neg (by simp [hk])] at hae
      exact hae ▸ ⟨ha, hk⟩
  · rename_i hany
    rcases List.mem_append.mp he with h | h
    · left
      refine ⟨h, fun hk => hany ?_⟩
      exact List.any_eq_true.mpr ⟨e, h, by simp [hk]⟩
    · right
      simpa using h

lemma find?_update_players (l : List Player) (sid : String) (f : Player → Player)
    (hid : ∀ p, (f p).id = p.id) :
    (l.map (fun q => if q.id == sid then f q else q)).find? (fun q => q.id == sid)
      = (l.find? (fun q => q.id == sid)).map f := by
  induction l with
  | nil => rfl
  | cons a l ih =>
    by_cases h : a.id = sid
    · rw [List.map_cons, if_pos (by simp [h]),
        List.find?_cons_of_pos _ (by simp [hid, h]),
        List.find?_cons_of_pos _ (by simp [h])]
      rfl
    · rw [List.map_cons, if_neg (by simp [h]),
        List.find?_cons_of_neg _ (by simp [h]),
        List.find?_cons_of_neg _ (by simp [h]), ih]

lemma submitAnswer_not_question {s : GameSession} {sid : String} {oid : Int} {now : Nat}
    (hst : ¬ s.status = GameStatus.question) :
    s.submitAnswer sid oid now = (s, false) := by
  unfold GameSession.submitAnswer
  rw [if_pos hst]

lemma submitAnswer_no_player {s : GameSession} {sid : String} {oid : Int} {now : Nat}
    (hst : s.status = GameStatus.question)
    (hf : s.players.find? (fun q => q.id == sid) = none) :
    s.submitAnswer sid oid now = (s, false) := by
  unfold GameSession.submitAnswer
  rw [if_neg (not_not_intro hst), hf]

lemma submitAnswer_answered {s : GameSession} {sid : String} {oid : Int} {now : Nat}
    {p : Player} (hst : s.status = GameStatus.question)
    (hf : s.players.find? (fun q => q.id == sid) = some p)
    (ha : ¬ p.currentAnswer = none) :
    s.submitAnswer sid oid now = (s, false) := by
  unfold GameSession.submitAnswer
  rw [if_neg (not_not_intro hst), hf]
  exact if_pos ha

lemma submitAnswer_accepted {s : GameSession} {sid : String} {oid : Int} {now : Nat}
    {p : Player} (hst : s.status = GameStatus.question)
    (hf : s.players.find? (fun q => q.id == sid) = some p)
    (ha : p.currentAnswer = none) :
    s.submitAnswer sid oid now =
      ({ s with players := s.players.map (fun q => if q.id == sid then
          { q with currentAnswer := some oid, answerTimestamp := some now } else q) },
        true) := by
  unfold GameSession.submitAnswer
  rw [if_neg (not_not_intro hst), hf]
  exact if_neg (not_not_intro ha)

/-- C6: `submitAnswer` returns "accepted" and records the chosen option id
and a submission timestamp exactly when the status is `question`, the
identity is a rostered player and that player has not already answered;
otherwise it is a no-op returning "not accepted"; a second call by the
same player for the same question is rejected and changes nothing; and no
call ever changes any player's score. -/
theorem C6_submitAnswer_contract (s : GameSession) (sid : String) (oid : Int) (now : Nat) :
    (((s.submitAnswer sid oid now).2 = true) ↔
      (s.status = GameStatus.question ∧
        ∃ p, s.players.find? (fun q => q.id == sid) = some p ∧ p.currentAnswer = none))
    ∧ ((s.submitAnswer sid oid now).2 = false → (s.submitAnswer sid oid now).1 = s)
    ∧ ((s.submitAnswer sid oid now).2 = true →
        ∃ p, (s.submitAnswer sid oid now).1.players.find? (fun q => q.id == sid) = some p ∧
          p.currentAnswer = some oid ∧ p.answerTimestamp = some now)
    ∧ ((s.submitAnswer sid oid now).2 = true → ∀ oid2 now2,
        (s.submitAnswer sid oid now).1.submitAnswer sid oid2 now2 =
          ((s.submitAnswer sid oid now).1, false))
    ∧ ((s.submitAnswer sid oid now).1.players.map (fun p => (p.id, p.score)) =
        s.players.map (fun p => (p.id, p.score))) := by
  by_cases hst : s.status = GameStatus.question
  · cases hf : s.players.find? (fun q => q.id == sid) with
    | none =>
      have hsa := @submitAnswer_no_player s sid oid now hst hf
      refine ⟨?_, ?_, ?_, ?_, ?_⟩ <;> simp [hsa, hst, hf]
    | some p =>
      by_cases hans : p.currentAnswer = none
      · have hsa := @submitAnswer_accepted s sid oid now p hst hf hans
        have hupd := find?_update_players s.players sid
          (fun q => { q with currentAnswer := some oid, answerTimestamp := some now })
          (fun q => rfl)
        have hf2 : (s.submitAnswer sid oid now).1.players.find? (fun q => q.id == sid) =
            some { p with currentAnswer := some oid, answerTimestamp := some now } := by
          rw [hsa]
          show (s.players.map (fun q => if q.id == sid then
            { q with currentAnswer := some oid, answerTimestamp := some now } else q)).find?
              (fun q => q.id == sid) =
            some { p with currentAnswer := some oid, answerTimestamp := some now }
          rw [hupd, hf]
          rfl
        refine ⟨?_, ?_, ?_, ?_, ?_⟩
        · rw [hsa]
          exact ⟨fun _ => ⟨hst, p, rfl, hans⟩, fun _ => rfl⟩
        · intro h
          rw [hsa] at h
          simp at h
        · intro _
          exact ⟨{ p with currentAnswer := some oid, answerTimestamp := some now },
            hf2, rfl, rfl⟩
        · intro _ oid2 now2
          have hstq : (s.submitAnswer sid oid now).1.status = GameStatus.question := by
            rw [hsa]
            exact hst
          exact submitAnswer_answered hstq hf2 (by simp)
        · rw [hsa]
          show (s.players.map (fun q => if q.id == sid then
            { q with currentAnswer := some oid, answerTimestamp := some now } else q)).map
              (fun p => (p.id, p.score)) = s.players.map (fun p => (p.id, p.score))
          rw [List.map_map]
          exact List.map_congr_left (fun q _ => by by_cases h : q.id = sid <;> simp [h])
      · have hsa := @submitAnswer_answered s sid oid now p hst hf hans
        refine ⟨?_, ?_, ?_, ?_, ?_⟩
        · rw [hsa]
          refine ⟨fun h => by simp at h, ?_⟩
          rintro ⟨-, p1, hp1, hc⟩
          cases Option.some.inj hp1
          exact absurd hc hans
        · intro _
          rw [hsa]
        · intro h
          rw [hsa] at h
          simp at h
        · intro h
          rw [hsa] at h
          simp at h
        · rw [hsa]
  · have hsa := @submitAnswer_not_question s sid oid now hst
    refine ⟨?_, ?_, ?_, ?_, ?_⟩ <;> simp [hsa, hst]

/-- C7: session construction fails exactly when the quiz id is unknown or
the quiz has no questions, and on such a failure no session is created
and the registry is left unchanged. -/
theorem C7_construction_failure (db : Db) (code : String) (quizId : Nat)
    (admin : String) (sid : Nat) (reg : Reg) :
    ((∃ e, (createGame db code quizId admin sid reg).2 = .error e) ↔
      (db.quizzes.find? (fun q => q.id == quizId) = none ∨
        db.questions.filter (fun q => q.quiz_id == quizId) = []))
    ∧ (∀ e, (createGame db code quizId admin sid reg).2 = .error e →
        (createGame db code quizId admin sid reg).1 = reg) := by
  unfold createGame GameSession.make
  cases hq : db.quizzes.find? (fun q => q.id == quizId) with
  | none => simp
  | some quiz =>
    by_cases hlen : (List.insertionSort (fun a b => a.order_index ≤ b.order_index)
        (db.questions.filter (fun q => q.quiz_id == quizId))).length = 0
    · have hfe : db.questions.filter (fun q => q.quiz_id == quizId) = [] := by
        have := List.length_insertionSort (fun a b => a.order_index ≤ b.order_index)
          (db.questions.filter (fun q => q.quiz_id == quizId))
        exact List.length_eq_zero.mp (by omega)
      simp [hlen, hfe]
    · have hne : ¬ db.questions.filter (fun q => q.quiz_id == quizId) = [] := by
        intro h
        rw [h] at hlen
        simp at hlen
      simp [hlen, hne]

/-- A session sitting in status `question`: one player has answered the
(unique correct) option 100 of question index 0 four seconds in. -/
def sessionC1 : GameSession := {
  sid := 0, gameCode := "CCCC", quizId := 1, quizTitle := "Capitals",
  players := [{ id := "s1", username := "alice", score := 0,
                currentAnswer := some 100, answerTimestamp := some 5000 }],
  currentQuestionIndex := 0, totalQuestions := 2, timerSeconds := 20,
  status := .question, questionStartTime := some 1000, adminSocketId := "adm",
  questions := [⟨10, 1, "Q1", 0, [⟨100, 10, "A", true, 0⟩, ⟨101, 10, "B", false, 1⟩]⟩,
                ⟨11, 1, "Q2", 1, [⟨102, 11, "A", false, 0⟩, ⟨103, 11, "B", true, 1⟩]⟩],
  questionResults := [], questionTimer := none }

/-- C1, counterexample: from a session in status `question` whose player
answered correctly, a second direct invocation of `endQuestion` (same
question, answers unchanged) does not leave the player's cumulative score
unchanged — it adds the question's points a second time (820 becomes
1640), so `endQuestion` itself is not idempotent. -/
theorem C1_counterexample :
    sessionC1.status = GameStatus.question ∧
    scoreOf (sessionC1.endQuestion []).1.1 "s1" = 820 ∧
    scoreOf ((sessionC1.endQuestion []).1.1.endQuestion (sessionC1.endQuestion []).1.2).1.1
        "s1" = 1640 := by
  decide

/-- Event trace for C2: create a two-question game, join a player, start
the first question, then advance with `next_question` while the first
question is still open. -/
def evsC2 : List Event :=
  [.create true true 1 "adm" "AAAA", .join "s1" "AAAA" "alice",
   .start "adm" 1000, .next "adm" 2000]

/-- C2, counterexample: after arming the first question's deadline and
then advancing mid-question, two live deadline timers exist at once, both
for the same session (the one whose model identity is 0) — `next_question`
armed a new deadline without cancelling the pending one, so at most one
live deadline timer per session does not hold. -/
theorem C2_counterexample :
    (run demoDb World.empty evsC2).timers = [(0, 0), (1, 0)] ∧
    ((getGameR (run demoDb World.empty evsC2).reg "AAAA").map (fun s => s.sid)) = some 0 := by
  decide

def worldC3a : World := (createGameHandlerW demoDb World.empty true true 1 "admin1" "AAAA").1

def worldC3b : World := (createGameHandlerW demoDb worldC3a true true 1 "admin2" "AAAA").1

/-- C3: `createGame` performs a single game-code generation with no retry
and stores the session with `Map.set`; when the generator returns a code
already held by an active session (here "AAAA" twice), the second
creation overwrites the first session's registry entry: afterwards the
registry has a single entry under "AAAA" owned by admin2 and admin1's
live session is gone from the registry. -/
theorem C3_no_retry_overwrites :
    (getGameByAdminSocketR worldC3a.reg "admin1").isSome = true ∧
    worldC3b.reg.length = 1 ∧
    (getGameR worldC3b.reg "AAAA").map (fun s => s.adminSocketId) = some "admin2" ∧
    getGameByAdminSocketR worldC3b.reg "admin1" = none := by
  decide

/-- Event trace for C4: a one-question quiz, started twice in a row (the
`start_game` handler checks no status, so the second `start_game` calls
`startNextQuestion` past the last question). -/
def evsC4 : List Event :=
  [.create true true 4 "adm4" "BBBB", .join "s4" "BBBB" "bob",
   .start "adm4" 1000, .start "adm4" 2000]

/-- C4, counterexample: a live session (still registered under "BBBB")
whose current question index equals `totalQuestions` = 1, outside the
claimed range [−1, totalQuestions−1] = [−1, 0]: the run-off
`startNextQuestion` left the incremented index in place. -/
theorem C4_counterexample :
    (getGameR (run demoDb World.empty evsC4).reg "BBBB").map
        (fun s => (s.currentQuestionIndex, s.totalQuestions, s.status)) =
      some (1, 1, GameStatus.question) ∧
    ¬ ((1 : Int) ≤ 1 - 1) := by
  decide

lemma clearQuestionTimer_fst (s : GameSession) (t : List (Nat × Nat)) :
    (clearQuestionTimer s t).1 = { s with questionTimer := none } := by
  unfold clearQuestionTimer
  cases s with
  | mk a b c d e f g h i j k l m n =>
    cases n with
    | some x => rfl
    | none => rfl

lemma endQuestion_spec {s : GameSession} {timers : List (Nat × Nat)} {q : QuestionW}
    (hq : listGetI s.questions s.currentQuestionIndex = some q) :
    (s.endQuestion timers).2 = some
      { correctOptionId := (Option.map (fun o => o.id)
          (q.options.find? (fun o => o.is_correct))).getD (-1),
        playerResults := s.players.map (fun p =>
          { username := p.username,
            correct := (scoreOnEnd s ((Option.map (fun o => o.id)
              (q.options.find? (fun o => o.is_correct))).getD (-1)) p).1,
            points := (scoreOnEnd s ((Option.map (fun o => o.id)
              (q.options.find? (fun o => o.is_correct))).getD (-1)) p).2 }) }
    ∧ (s.endQuestion timers).1.1.players = s.players.map (fun p =>
        { p with score := p.score + (scoreOnEnd s ((Option.map (fun o => o.id)
          (q.options.find? (fun o => o.is_correct))).getD (-1)) p).2 })
    ∧ (s.endQuestion timers).1.1.status = GameStatus.reveal := by
  refine ⟨?_, ?_, ?_⟩ <;>
    simp only [GameSession.endQuestion, clearQuestionTimer_fst, hq] <;> rfl

lemma calculateScore_pos (a b : Nat) : 0 < calculateScore a b := by
  unfold calculateScore
  split
  · norm_num
  · split
    · norm_num
    · have : 100 ≤ max 100 (1000 - 900 * a / b) := le_max_left _ _
      omega

/-- C9: `submitAnswer` accepts any integer option id (the decision never
looks at the payload), and `endQuestion` on a question with no option
flagged correct is total, using −1 as the correct option id: a player
whose recorded answer is −1 is then marked correct and receives positive
points (given well-formed timestamps). -/
theorem C9_unvalidated_answers (s : GameSession) (timers : List (Nat × Nat))
    (q : QuestionW)
    (hq : listGetI s.questions s.currentQuestionIndex = some q)
    (hnc : ∀ o ∈ q.options, o.is_correct = false) :
    (∀ (sid : String) (oid oid2 : Int) (now : Nat),
      (s.submitAnswer sid oid now).2 = (s.submitAnswer sid oid2 now).2)
    ∧ ∀ res, (s.endQuestion timers).2 = some res →
        res.correctOptionId = -1
        ∧ ∀ p ∈ s.players, p.currentAnswer = some (-1) →
            truthyTime s.questionStartTime = true → truthyTime p.answerTimestamp = true →
            ∃ pr ∈ res.playerResults,
              pr.username = p.username ∧ pr.correct = true ∧ 0 < pr.points := by
  have hfind : q.options.find? (fun o => o.is_correct) = none :=
    List.find?_eq_none.mpr (fun o ho => by simp [hnc o ho])
  constructor
  · intro sid oid oid2 now
    by_cases hst : s.status = GameStatus.question
    · cases hf : s.players.find? (fun p2 => p2.id == sid) with
      | none => rw [submitAnswer_no_player hst hf, submitAnswer_no_player hst hf]
      | some p =>
        by_cases hans : p.currentAnswer = none
        · rw [submitAnswer_accepted hst hf hans, submitAnswer_accepted hst hf hans]
        · rw [submitAnswer_answered hst hf hans, submitAnswer_answered hst hf hans]
    · rw [submitAnswer_not_question hst, submitAnswer_not_question hst]
  · intro res hres
    have hspec := @endQuestion_spec s timers q hq
    have hres2 := Option.some.inj (hres.symm.trans hspec.1)
    subst hres2
    refine ⟨by simp [hfind], ?_⟩
    intro p hp hpans ht1 ht2
    refine ⟨_, List.mem_map.mpr ⟨p, hp, rfl⟩, rfl, ?_, ?_⟩
    · simp [scoreOnEnd, hfind, hpans]
    · simp [scoreOnEnd, hfind, hpans, ht1, ht2, calculateScore_pos]

/-- A concrete session used by the C9 witness: the current question has
no option flagged correct and the player answered −1. -/
def sessionC9 : GameSession := {
  sid := 0, gameCode := "DDDD", quizId := 3, quizTitle := "Broken",
  players := [{ id := "s9", username := "carol", score := 0,
                currentAnswer := some (-1), answerTimestamp := some 3000 }],
  currentQuestionIndex := 0, totalQuestions := 1, timerSeconds := 20,
  status := .question, questionStartTime := some 1000, adminSocketId := "adm9",
  questions := [⟨20, 3, "QB", 0, [⟨200, 20, "A", false, 0⟩, ⟨201, 20, "B", false, 1⟩]⟩],
  questionResults := [], questionTimer := none }

def questionC9 : QuestionW :=
  ⟨20, 3, "QB", 0, [⟨200, 20, "A", false, 0⟩, ⟨201, 20, "B", false, 1⟩]⟩

/-- C9, witness at a concrete session. -/
theorem C9_witness :
    (listGetI sessionC9.questions sessionC9.currentQuestionIndex = some questionC9
      ∧ ∀ o ∈ questionC9.options, o.is_correct = false)
    ∧ ((∀ (sid : String) (oid oid2 : Int) (now : Nat),
        (sessionC9.submitAnswer sid oid now).2 = (sessionC9.submitAnswer sid oid2 now).2)
      ∧ ∀ res, (sessionC9.endQuestion []).2 = some res →
          res.correctOptionId = -1
          ∧ ∀ p ∈ sessionC9.players, p.currentAnswer = some (-1) →
              truthyTime sessionC9.questionStartTime = true →
              truthyTime p.answerTimestamp = true →
              ∃ pr ∈ res.playerResults,
                pr.username = p.username ∧ pr.correct = true ∧ 0 < pr.points) :=
  ⟨⟨by decide, by decide⟩,
   C9_unvalidated_answers sessionC9 [] questionC9 (by decide) (by decide)⟩

/-- C10: a player disconnecting never closes the question. When the
disconnecting socket is not an admin and is rostered in a session, the
disconnect handler only removes the player and broadcasts — it does not
touch the status, the deadline timer, the remaining players or any
score, and it never invokes the all-players-answered check: even when
the disconnecting player was the only one still unanswered (so that
`allPlayersAnswered` becomes true), the question stays open. -/
theorem C10_disconnect_keeps_question_open (w : World) (s : GameSession) (sid : String)
    (hadm : getGameByAdminSocketR w.reg sid = none)
    (hpl : getGameByPlayerSocketR w.reg sid = some s) :
    disconnectHandlerW w sid =
      { w with reg := mapSet w.reg (s.removePlayer sid).gameCode (s.removePlayer sid) }
    ∧ (s.removePlayer sid).status = s.status
    ∧ (s.removePlayer sid).questionTimer = s.questionTimer
    ∧ (∀ p2 ∈ (s.removePlayer sid).players, p2 ∈ s.players)
    ∧ ((∀ p ∈ s.players, p.id ≠ sid → p.currentAnswer.isSome = true) →
        (s.removePlayer sid).allPlayersAnswered = true) := by
  unfold disconnectHandlerW
  rw [hadm, hpl]
  refine ⟨rfl, rfl, rfl, ?_, ?_⟩
  · intro p2 hp2
    exact List.mem_of_mem_filter hp2
  · intro h
    unfold GameSession.allPlayersAnswered GameSession.removePlayer
    rw [List.all_eq_true]
    intro p hp
    have hmem := List.mem_of_mem_filter hp
    have hpred := List.of_mem_filter hp
    exact h p hmem (by simpa using hpred)

/-- Event trace for the C10 witness: two players, one question open,
"alice" has answered, "bob" has not. -/
def evsC10 : List Event :=
  [.create true true 1 "admA" "EEEE", .join "pa" "EEEE" "alice",
   .join "pb" "EEEE" "bob", .start "admA" 1000, .submit "pa" 100 3000]

def worldC10 : World := run demoDb World.empty evsC10

def fallbackSession : GameSession := {
  sid := 0, gameCode := "", quizId := 0, quizTitle := "",
  players := [], currentQuestionIndex := -1, totalQuestions := 0, timerSeconds := 0,
  status := .waiting, questionStartTime := none, adminSocketId := "",
  questions := [], questionResults := [], questionTimer := none }

def sessionC10 : GameSession :=
  (getGameByPlayerSocketR worldC10.reg "pb").getD fallbackSession

/-- C10, witness: the last unanswered player "bob" disconnects from a
reachable mid-question state. -/
theorem C10_witness :
    (getGameByAdminSocketR worldC10.reg "pb" = none
      ∧ getGameByPlayerSocketR worldC10.reg "pb" = some sessionC10)
    ∧ (disconnectHandlerW worldC10 "pb" =
        { worldC10 with
            reg := mapSet worldC10.reg (sessionC10.removePlayer "pb").gameCode
                     (sessionC10.removePlayer "pb") }
      ∧ (sessionC10.removePlayer "pb").status = sessionC10.status
      ∧ (sessionC10.removePlayer "pb").questionTimer = sessionC10.questionTimer
      ∧ (∀ p2 ∈ (sessionC10.removePlayer "pb").players, p2 ∈ sessionC10.players)
      ∧ ((∀ p ∈ sessionC10.players, p.id ≠ "pb" → p.currentAnswer.isSome = true) →
          (sessionC10.removePlayer "pb").allPlayersAnswered = true)) :=
  ⟨⟨by decide, by decide⟩,
   C10_disconnect_keeps_question_open worldC10 sessionC10 "pb" (by decide) (by decide)⟩

lemma endQuestion_status (s : GameSession) (timers : List (Nat × Nat)) :
    (s.endQuestion timers).1.1.status = GameStatus.reveal := by
  cases hq : listGetI s.questions s.currentQuestionIndex with
  | none => simp only [GameSession.endQuestion, clearQuestionTimer_fst, hq]
  | some q => exact (@endQuestion_spec s timers q hq).2.2

lemma endQuestion_timers {s : GameSession} {timers : List (Nat × Nat)} {t : Nat}
    (ht : s.questionTimer = some t) :
    (s.endQuestion timers).1.2 = timers.filter (fun e => !(e.1 == t)) := by
  cases hq : listGetI s.questions s.currentQuestionIndex with
  | none => simp only [GameSession.endQuestion, clearQuestionTimer, ht, hq]
  | some q => simp only [GameSession.endQuestion, clearQuestionTimer, ht, hq]

lemma timerFired_noop (w : World) (tid : Nat) (h : ∀ e ∈ w.timers, e.1 ≠ tid) :
    timerFiredHandlerW w tid = w := by
  unfold timerFiredHandlerW
  have hf : w.timers.find? (fun e => e.1 == tid) = none :=
    List.find?_eq_none.mpr (fun e he => by simp [h e he])
  rw [hf]

/-- C1, amended: `endQuestion` itself is not idempotent (a second direct
invocation re-adds each player's points), but the score increase is still
applied exactly once per question because the two closing paths exclude
each other: closing sets the status to `reveal` (so every later
submission is rejected and the all-answered path, which runs only after
an accepted submission, cannot close again), the pending deadline handle
is removed from the live-timer list, and a timer id that is no longer
live fires as a no-op. -/
theorem C1_close_exactly_once (s : GameSession) (timers : List (Nat × Nat))
    (h : s.status = GameStatus.question) :
    (s.endQuestion timers).1.1.status = GameStatus.reveal
    ∧ (∀ (sid : String) (oid : Int) (now : Nat),
        (s.endQuestion timers).1.1.submitAnswer sid oid now =
          ((s.endQuestion timers).1.1, false))
    ∧ (∀ t, s.questionTimer = some t → ∀ e ∈ (s.endQuestion timers).1.2, e.1 ≠ t)
    ∧ (∀ (w : World) (tid : Nat), (∀ e ∈ w.timers, e.1 ≠ tid) →
        timerFiredHandlerW w tid = w) := by
  refine ⟨endQuestion_status s timers, ?_, ?_, timerFired_noop⟩
  · intro sid oid now
    exact submitAnswer_not_question (by simp [endQuestion_status])
  · intro t ht e he
    rw [endQuestion_timers ht] at he
    simpa using List.of_mem_filter he

def sessionC1T : GameSession := { sessionC1 with questionTimer := some 7 }

/-- C1, witness: the amended closing contract at a concrete open
question with a pending deadline handle. -/
theorem C1_witness :
    sessionC1T.status = GameStatus.question
    ∧ ((sessionC1T.endQuestion [(7, 0)]).1.1.status = GameStatus.reveal
      ∧ (∀ (sid : String) (oid : Int) (now : Nat),
          (sessionC1T.endQuestion [(7, 0)]).1.1.submitAnswer sid oid now =
            ((sessionC1T.endQuestion [(7, 0)]).1.1, false))
      ∧ (∀ t, sessionC1T.questionTimer = some t →
          ∀ e ∈ (sessionC1T.endQuestion [(7, 0)]).1.2, e.1 ≠ t)
      ∧ (∀ (w : World) (tid : Nat), (∀ e ∈ w.timers, e.1 ≠ tid) →
          timerFiredHandlerW w tid = w)) :=
  ⟨by decide, C1_close_exactly_once sessionC1T [(7, 0)] (by decide)⟩

/-- C2, amended: `setQuestionTimer` arms unconditionally (arming is not
idempotent — see the counterexample — and the deadline callback checks no
status), but the single-live-timer discipline holds on every flow where
arming happens while the session has no live timer: arming then yields
exactly one live entry for the session; teardown (`removeGame`) cancels
the pending handle; and a timer id absent from the live list (because it
fired or was cancelled) fires as a no-op, which is what makes a late
deadline harmless after a question already closed. -/
theorem C2_single_timer_mechanism (w : World) (s : GameSession)
    (h : ∀ e ∈ w.timers, e.2 ≠ s.sid) :
    ((handleQuestion w s).timers.filter (fun e => e.2 == s.sid)).length = 1
    ∧ (∀ (w2 : World) (code : String) (g : GameSession) (t : Nat),
        getGameR w2.reg code = some g → g.questionTimer = some t →
        ∀ e ∈ (removeGameW w2 code).timers, e.1 ≠ t)
    ∧ (∀ (w2 : World) (tid : Nat), (∀ e ∈ w2.timers, e.1 ≠ tid) →
        timerFiredHandlerW w2 tid = w2) := by
  refine ⟨?_, ?_, timerFired_noop⟩
  · have harm : (handleQuestion w s).timers = w.timers ++ [(w.nextTimerId, s.sid)] := rfl
    rw [harm, List.filter_append]
    have hnil : w.timers.filter (fun e => e.2 == s.sid) = [] :=
      List.filter_eq_nil_iff.mpr (fun e he => by simp [h e he])
    rw [hnil]
    simp
  · intro w2 code g t hg ht e he
    have hrt : (removeGameW w2 code).timers = w2.timers.filter (fun e => !(e.1 == t)) := by
      simp only [removeGameW, hg, ht]
    rw [hrt] at he
    simpa using List.of_mem_filter he

def worldC2W : World :=
  run demoDb World.empty [.create true true 1 "adm" "AAAA", .join "s1" "AAAA" "alice"]

def sessionC2W : GameSession := (getGameR worldC2W.reg "AAAA").getD fallbackSession

/-- C2, witness: arming the first deadline from a reachable state with no
live timers leaves exactly one live timer for the session. -/
theorem C2_witness :
    (∀ e ∈ worldC2W.timers, e.2 ≠ sessionC2W.sid)
    ∧ (((handleQuestion worldC2W sessionC2W).timers.filter
          (fun e => e.2 == sessionC2W.sid)).length = 1
      ∧ (∀ (w2 : World) (code : String) (g : GameSession) (t : Nat),
          getGameR w2.reg code = some g → g.questionTimer = some t →
          ∀ e ∈ (removeGameW w2 code).timers, e.1 ≠ t)
      ∧ (∀ (w2 : World) (tid : Nat), (∀ e ∈ w2.timers, e.1 ≠ tid) →
          timerFiredHandlerW w2 tid = w2)) :=
  ⟨by decide, C2_single_timer_mechanism worldC2W sessionC2W (by decide)⟩

/-! Registry well-formedness: the induction invariant carried along every
event, from which the claimed state invariants follow. -/

/-- Number of registry entries owned by the given admin identity. -/
def adminCount (m : Reg) (a : String) : Nat :=
  m.countP (fun e => e.2.adminSocketId == a)

/-- Structural facts every constructed session keeps. -/
def SessWF (s : GameSession) : Prop :=
  -1 ≤ s.currentQuestionIndex
  ∧ s.questions.length = s.totalQuestions
  ∧ (s.status = GameStatus.waiting → ∀ p ∈ s.players, p.score = 0)
  ∧ (s.players.map (fun p => p.id)).Nodup

/-- Registry invariant: keys are unique, each entry is keyed by its
session's game code, every stored session is well formed, and each admin
identity owns at most one entry. -/
def RegWF (m : Reg) : Prop :=
  (m.map (fun e => e.1)).Nodup
  ∧ (∀ e ∈ m, e.1 = e.2.gameCode)
  ∧ (∀ e ∈ m, SessWF e.2)
  ∧ (∀ a : String, adminCount m a ≤ 1)

lemma countP_congr_mem {α : Type} (l : List α) (p q : α → Bool)
    (h : ∀ a ∈ l, p a = q a) : l.countP p = l.countP q := by
  induction l with
  | nil => rfl
  | cons a l ih =>
    rw [List.countP_cons, List.countP_cons, h a (by simp),
      ih (fun b hb => h b (by simp [hb]))]

lemma countP_le_countP {α : Type} (l : List α) (p q : α → Bool)
    (h : ∀ a ∈ l, p a = true → q a = true) : l.countP p ≤ l.countP q := by
  induction l with
  | nil => exact Nat.le_refl 0
  | cons a l ih =>
    rw [List.countP_cons, List.countP_cons]
    have hl := ih (fun b hb hpb => h b (by simp [hb]) hpb)
    by_cases hpa : p a = true
    · rw [if_pos hpa, if_pos (h a (by simp) hpa)]
      omega
    · rw [if_neg hpa]
      split <;> omega

lemma key_unique {m : Reg} (hnd : (m.map (fun e => e.1)).Nodup)
    {e1 e2 : String × GameSession} (h1 : e1 ∈ m) (h2 : e2 ∈ m) (hk : e1.1 = e2.1) :
    e1 = e2 :=
  List.inj_on_of_nodup_map hnd h1 h2 hk

lemma players_unique {l : List Player} (hnd : (l.map (fun p => p.id)).Nodup)
    {p1 p2 : Player} (h1 : p1 ∈ l) (h2 : p2 ∈ l) (hk : p1.id = p2.id) : p1 = p2 :=
  List.inj_on_of_nodup_map hnd h1 h2 hk

lemma mapSet_eq_map {m : Reg} {k : String} {v : GameSession}
    (h : m.any (fun e => e.1 == k) = true) :
    mapSet m k v = m.map (fun e => if e.1 == k then (k, v) else e) := by
  unfold mapSet
  rw [if_pos h]

lemma mapSet_eq_append {m : Reg} {k : String} {v : GameSession}
    (h : ¬ m.any (fun e => e.1 == k) = true) :
    mapSet m k v = m ++ [(k, v)] := by
  unfold mapSet
  rw [if_neg h]

lemma keys_mapSet_present {m : Reg} {k : String} {v : GameSession}
    (h : m.any (fun e => e.1 == k) = true) :
    (mapSet m k v).map (fun e => e.1) = m.map (fun e => e.1) := by
  rw [mapSet_eq_map h, List.map_map]
  exact List.map_congr_left (fun e _ => by by_cases hk : e.1 = k <;> simp [hk])

lemma nodupKeys_mapSet {m : Reg} {k : String} {v : GameSession}
    (h : (m.map (fun e => e.1)).Nodup) :
    ((mapSet m k v).map (fun e => e.1)).Nodup := by
  by_cases hp : m.any (fun e => e.1 == k) = true
  · rw [keys_mapSet_present hp]
    exact h
  · rw [mapSet_eq_append hp, List.map_append]
    rw [List.nodup_append]
    refine ⟨h, List.nodup_singleton k, ?_⟩
    intro a ha hb
    simp only [List.map_cons, List.map_nil, List.mem_singleton] at hb
    subst hb
    rcases List.mem_map.mp ha with ⟨e, he, hek⟩
    exact hp (List.any_eq_true.mpr ⟨e, he, by simp [hek]⟩)

lemma adminCount_append (m : Reg) (k : String) (v : GameSession) (a : String) :
    adminCount (m ++ [(k, v)]) a =
      adminCount m a + (if v.adminSocketId == a then 1 else 0) := by
  unfold adminCount
  rw [List.countP_append, List.countP_cons]
  simp [List.countP_nil]

lemma adminCount_mapSet_same {m : Reg} {k : String} {v : GameSession}
    (hsame : ∀ e ∈ m, e.1 = k → e.2.adminSocketId = v.adminSocketId)
    (hp : m.any (fun e => e.1 == k) = true) (a : String) :
    adminCount (mapSet m k v) a = adminCount m a := by
  rw [mapSet_eq_map hp]
  unfold adminCount
  rw [List.countP_map]
  apply countP_congr_mem
  intro e he
  by_cases hek : e.1 = k
  · simp only [Function.comp_apply, if_pos (by simp [hek] : (e.1 == k) = true)]
    rw [hsame e he hek]
  · simp only [Function.comp_apply, if_neg (by simp [hek] : ¬ (e.1 == k) = true)]

lemma countP_key_le_one {m : Reg} (h : (m.map (fun e => e.1)).Nodup) (k : String) :
    m.countP (fun e => e.1 == k) ≤ 1 := by
  have h1 : (m.map (fun e => e.1)).countP (fun x => x == k) =
      m.countP (fun e => e.1 == k) := List.countP_map _ _ _
  have h2 : (m.map (fun e => e.1)).count k =
      (m.map (fun e => e.1)).countP (fun x => x == k) := by
    simp [List.count]
  have h3 := List.nodup_iff_count_le_one.mp h k
  omega

lemma adminCount_mapSet_le {m : Reg} {k : String} {v : GameSession}
    (hnd : (m.map (fun e => e.1)).Nodup) (hcnt : ∀ b, adminCount m b ≤ 1)
    (hnew : adminCount m v.adminSocketId = 0) (a : String) :
    adminCount (mapSet m k v) a ≤ 1 := by
  have hzero := List.countP_eq_zero.mp hnew
  by_cases hp : m.any (fun e => e.1 == k) = true
  · rw [mapSet_eq_map hp]
    unfold adminCount
    rw [List.countP_map]
    by_cases ha : v.adminSocketId = a
    · subst ha
      refine le_trans (countP_le_countP _ _ _ ?_) (countP_key_le_one hnd k)
      intro e he hpe
      by_cases hek : e.1 = k
      · simp [hek]
      · rw [Function.comp_apply, if_neg (by simp [hek] : ¬ (e.1 == k) = true)] at hpe
        exact absurd hpe (by simpa using hzero e he)
    · refine le_trans (countP_le_countP _ _ _ ?_) (hcnt a)
      intro e he hpe
      by_cases hek : e.1 = k
      · rw [Function.comp_apply, if_pos (by simp [hek] : (e.1 == k) = true)] at hpe
        exact absurd hpe (by simp [ha])
      · rw [Function.comp_apply, if_neg (by simp [hek] : ¬ (e.1 == k) = true)] at hpe
        exact hpe
  · rw [mapSet_eq_append hp, adminCount_append]
    by_cases ha : v.adminSocketId = a
    · subst ha
      rw [hnew]
      simp
    · rw [if_neg (by simp [ha])]
      have := hcnt a
      omega

lemma RegWF_mapSet_writeback {m : Reg} (hm : RegWF m) {v : GameSession}
    (hv : SessWF v)
    (hsame : ∀ e ∈ m, e.1 = v.gameCode → e.2.adminSocketId = v.adminSocketId)
    (hp : m.any (fun e => e.1 == v.gameCode) = true) :
    RegWF (mapSet m v.gameCode v) := by
  obtain ⟨hnd, hkey, hwf, hcnt⟩ := hm
  refine ⟨nodupKeys_mapSet hnd, ?_, ?_, ?_⟩
  · intro e he
    rcases mem_mapSet he with ⟨hem, -⟩ | rfl
    · exact hkey e hem
    · rfl
  · intro e he
    rcases mem_mapSet he with ⟨hem, -⟩ | rfl
    · exact hwf e hem
    · exact hv
  · intro a
    rw [adminCount_mapSet_same hsame hp]
    exact hcnt a

lemma RegWF_mapSet_newAdmin {m : Reg} (hm : RegWF m) {v : GameSession}
    (hv : SessWF v) (hadm : adminCount m v.adminSocketId = 0) :
    RegWF (mapSet m v.gameCode v) := by
  obtain ⟨hnd, hkey, hwf, hcnt⟩ := hm
  refine ⟨nodupKeys_mapSet hnd, ?_, ?_, fun a => adminCount_mapSet_le hnd hcnt hadm a⟩
  · intro e he
    rcases mem_mapSet he with ⟨hem, -⟩ | rfl
    · exact hkey e hem
    · rfl
  · intro e he
    rcases mem_mapSet he with ⟨hem, -⟩ | rfl
    · exact hwf e hem
    · exact hv

lemma RegWF_filter {m : Reg} (hm : RegWF m) (q : String × GameSession → Bool) :
    RegWF (m.filter q) := by
  obtain ⟨hnd, hkey, hwf, hcnt⟩ := hm
  refine ⟨hnd.sublist ((List.filter_sublist m).map _), ?_, ?_, ?_⟩
  · exact fun e he => hkey e (List.mem_of_mem_filter he)
  · exact fun e he => hwf e (List.mem_of_mem_filter he)
  · exact fun a => le_trans ((List.filter_sublist m).countP_le _) (hcnt a)

lemma getGameR_some {m : Reg} {code : String} {s : GameSession}
    (h : getGameR m code = some s) : (code, s) ∈ m := by
  unfold getGameR at h
  cases hh : m.find? (fun e => e.1 == code) with
  | none =>
    rw [hh] at h
    simp at h
  | some e =>
    rw [hh] at h
    simp only [Option.map_some', Option.some.injEq] at h
    have hmem := List.mem_of_find?_eq_some hh
    have hpred := List.find?_some hh
    have hk : e.1 = code := by simpa using hpred
    have : e = (code, s) := by
      cases e
      simp only at hk h
      rw [hk, h]
    exact this ▸ hmem

lemma getGameByAdminSocketR_some {m : Reg} {a : String} {s : GameSession}
    (h : getGameByAdminSocketR m a = some s) :
    (∃ k, (k, s) ∈ m) ∧ s.adminSocketId = a := by
  unfold getGameByAdminSocketR at h
  cases hh : m.find? (fun e => e.2.adminSocketId == a) with
  | none =>
    rw [hh] at h
    simp at h
  | some e =>
    rw [hh] at h
    simp only [Option.map_some', Option.some.injEq] at h
    have hmem := List.mem_of_find?_eq_some hh
    have hpred := List.find?_some hh
    subst h
    exact ⟨⟨e.1, hmem⟩, by simpa using hpred⟩

lemma getGameByAdminSocketR_none {m : Reg} {a : String}
    (h : getGameByAdminSocketR m a = none) : adminCount m a = 0 := by
  unfold getGameByAdminSocketR at h
  cases hh : m.find? (fun e => e.2.adminSocketId == a) with
  | some e =>
    rw [hh] at h
    simp at h
  | none =>
    exact List.countP_eq_zero.mpr (List.find?_eq_none.mp hh)

lemma getGameByPlayerSocketR_some {m : Reg} {a : String} {s : GameSession}
    (h : getGameByPlayerSocketR m a = some s) : ∃ k, (k, s) ∈ m := by
  unfold getGameByPlayerSocketR at h
  cases hh : m.find? (fun e => e.2.players.any (fun p => p.id == a)) with
  | none =>
    rw [hh] at h
    simp at h
  | some e =>
    rw [hh] at h
    simp only [Option.map_some', Option.some.injEq] at h
    subst h
    exact ⟨e.1, List.mem_of_find?_eq_some hh⟩

/-- A looked-up session sits in the registry under its own game code. -/
lemma lookup_entry_code {m : Reg} (hm : RegWF m) {k : String} {s : GameSession}
    (h : (k, s) ∈ m) : k = s.gameCode ∧ (s.gameCode, s) ∈ m := by
  have := hm.2.1 (k, s) h
  exact ⟨this, this ▸ h⟩

lemma key_present_of_mem {m : Reg} {e : String × GameSession} (h : e ∈ m) :
    m.any (fun x => x.1 == e.1) = true :=
  List.any_eq_true.mpr ⟨e, h, by simp⟩

lemma mem_playersSet {l : List Player} {v q : Player} (h : q ∈ playersSet l v) :
    q ∈ l ∨ q = v := by
  unfold playersSet at h
  split at h
  · rcases List.mem_map.mp h with ⟨a, ha, hae⟩
    by_cases hk : a.id = v.id
    · right
      rw [if_pos (by simp [hk])] at hae
      exact hae.symm
    · left
      rw [if_neg (by simp [hk])] at hae
      exact hae ▸ ha
  · rcases List.mem_append.mp h with h2 | h2
    · exact Or.inl h2
    · exact Or.inr (by simpa using h2)

lemma nodupIds_playersSet {l : List Player} {v : Player}
    (h : (l.map (fun p => p.id)).Nodup) :
    ((playersSet l v).map (fun p => p.id)).Nodup := by
  unfold playersSet
  split
  · rw [List.map_map]
    have : l.map ((fun p => p.id) ∘ fun p => if p.id == v.id then v else p) =
        l.map (fun p => p.id) :=
      List.map_congr_left (fun p _ => by by_cases hk : p.id = v.id <;> simp [hk])
    rw [this]
    exact h
  · rename_i hany
    rw [List.map_append]
    rw [List.nodup_append]
    refine ⟨h, List.nodup_singleton v.id, ?_⟩
    intro a ha hb
    simp only [List.map_cons, List.map_nil, List.mem_singleton] at hb
    subst hb
    rcases List.mem_map.mp ha with ⟨p, hp, hpid⟩
    exact hany (List.any_eq_true.mpr ⟨p, hp, by simp [hpid]⟩)

lemma nodupIds_map {l : List Player} (h : (l.map (fun p => p.id)).Nodup)
    (f : Player → Player) (hid : ∀ p, (f p).id = p.id) :
    ((l.map f).map (fun p => p.id)).Nodup := by
  rw [List.map_map]
  have : l.map ((fun p => p.id) ∘ f) = l.map (fun p => p.id) :=
    List.map_congr_left (fun p _ => hid p)
  rw [this]
  exact h

lemma score_mono_map (l : List Player) (hnd : (l.map (fun p => p.id)).Nodup)
    (f : Player → Player) (hid : ∀ p, (f p).id = p.id)
    (hsc : ∀ p, p.score ≤ (f p).score) :
    ∀ p ∈ l, ∀ p2 ∈ l.map f, p2.id = p.id → p.score ≤ p2.score := by
  intro p hp p2 hp2 hpe
  rcases List.mem_map.mp hp2 with ⟨p0, hp0, rfl⟩
  have hid0 : p0.id = p.id := by
    rw [← hid p0]
    exact hpe
  have heq : p0 = p := players_unique hnd hp0 hp hid0
  subst heq
  exact hsc p0

lemma score_mono_of_mem (l : List Player) (hnd : (l.map (fun p => p.id)).Nodup)
    (l2 : List Player) (hsub : ∀ p2 ∈ l2, p2 ∈ l) :
    ∀ p ∈ l, ∀ p2 ∈ l2, p2.id = p.id → p.score ≤ p2.score := by
  intro p hp p2 hp2 hpe
  have heq : p2 = p := players_unique hnd (hsub p2 hp2) hp hpe
  rw [heq]

lemma score_mono_playersSet (l : List Player) (v : Player)
    (hz : ∀ p ∈ l, p.score = 0) :
    ∀ p ∈ l, ∀ p2 ∈ playersSet l v, p2.id = p.id → p.score ≤ p2.score := by
  intro p hp p2 _ _
  rw [hz p hp]
  exact Nat.zero_le _

def freshPlayer (sid u : String) : Player :=
  { id := sid, username := u, score := 0, currentAnswer := none, answerTimestamp := none }

lemma addPlayer_ok {s : GameSession} {sid u : String} {s2 : GameSession} {p : Player}
    (h : s.addPlayer sid u = .ok (s2, p)) :
    s.status = GameStatus.waiting
    ∧ s2 = { s with players := playersSet s.players (freshPlayer sid u) } := by
  unfold GameSession.addPlayer at h
  by_cases hst : s.status ≠ GameStatus.waiting
  · rw [if_pos hst] at h
    exact absurd h (by simp)
  · rw [if_neg hst] at h
    by_cases hu : s.players.any (fun q => jsLower q.username == jsLower u) = true
    · rw [if_pos hu] at h
      exact absurd h (by simp)
    · rw [if_neg hu] at h
      simp only [Except.ok.injEq, Prod.mk.injEq] at h
      exact ⟨not_not.mp hst, h.1.symm⟩

lemma startNextQuestion_run_off {s : GameSession} {now : Nat}
    (hif : (s.totalQuestions : Int) ≤ s.currentQuestionIndex + 1) :
    s.startNextQuestion now =
      ({ s with currentQuestionIndex := s.currentQuestionIndex + 1 }, none) := by
  unfold GameSession.startNextQuestion
  rw [if_pos hif]

lemma startNextQuestion_cases (s : GameSession) (now : Nat) :
    ((s.startNextQuestion now).1 =
        { s with currentQuestionIndex := s.currentQuestionIndex + 1 }
      ∧ (s.startNextQuestion now).2 = none)
    ∨ (s.startNextQuestion now).1 =
        { s with currentQuestionIndex := s.currentQuestionIndex + 1,
                 status := GameStatus.question, questionStartTime := some now,
                 questionResults := [],
                 players := s.players.map (fun p =>
                   { p with currentAnswer := none, answerTimestamp := none }) } := by
  simp only [GameSession.startNextQuestion]
  split
  · exact Or.inl ⟨rfl, rfl⟩
  · right
    split <;> rfl

lemma startNextQuestion_some_of_lt (s : GameSession) (now : Nat)
    (hlo : -1 ≤ s.currentQuestionIndex) (hlen : s.questions.length = s.totalQuestions)
    (hlt : s.currentQuestionIndex + 1 < (s.totalQuestions : Int)) :
    ∃ pl, (s.startNextQuestion now).2 = some pl := by
  have hnat : (s.currentQuestionIndex + 1).toNat < s.questions.length := by
    rw [hlen]
    omega
  have hsome : listGetI s.questions (s.currentQuestionIndex + 1) =
      some (s.questions.get ⟨(s.currentQuestionIndex + 1).toNat, hnat⟩) := by
    unfold listGetI
    rw [if_neg (by omega), List.get?_eq_get hnat]
  simp only [GameSession.startNextQuestion]
  rw [if_neg (by omega), hsome]
  exact ⟨_, rfl⟩

lemma endQuestion_fst_fields (s : GameSession) (timers : List (Nat × Nat)) :
    (s.endQuestion timers).1.1.gameCode = s.gameCode
    ∧ (s.endQuestion timers).1.1.adminSocketId = s.adminSocketId
    ∧ (s.endQuestion timers).1.1.questions = s.questions
    ∧ (s.endQuestion timers).1.1.totalQuestions = s.totalQuestions
    ∧ (s.endQuestion timers).1.1.currentQuestionIndex = s.currentQuestionIndex
    ∧ ((s.endQuestion timers).1.1.players = s.players
      ∨ ∃ cid, (s.endQuestion timers).1.1.players = s.players.map (fun p =>
          { p with score := p.score + (scoreOnEnd s cid p).2 })) := by
  cases hq : listGetI s.questions s.currentQuestionIndex with
  | none =>
    refine ⟨?_, ?_, ?_, ?_, ?_, Or.inl ?_⟩ <;>
      simp only [GameSession.endQuestion, clearQuestionTimer_fst, hq]
  | some q =>
    obtain ⟨-, hpl, -⟩ := @endQuestion_spec s timers q hq
    refine ⟨?_, ?_, ?_, ?_, ?_, Or.inr ⟨_, hpl⟩⟩ <;>
      simp only [GameSession.endQuestion, clearQuestionTimer_fst, hq]

/-- Score monotonicity across one registry evolution: any player of any
entry can only see its cumulative score grow in the entry that remains
under the same game code. -/
def regScoreMono (m m2 : Reg) : Prop :=
  ∀ k s, (k, s) ∈ m → ∀ p ∈ s.players, ∀ s2, (k, s2) ∈ m2 →
    ∀ p2 ∈ s2.players, p2.id = p.id → p.score ≤ p2.score

lemma regScoreMono_refl {m : Reg} (hm : RegWF m) : regScoreMono m m := by
  intro k s0 hk p hp s2 hs2 p2 hp2 hpe
  have hs : s0 = s2 := congrArg Prod.snd (key_unique hm.1 hk hs2 rfl)
  subst hs
  have hnd := (hm.2.2.1 (k, s0) hk).2.2.2
  rw [players_unique hnd hp2 hp hpe]

lemma regScoreMono_subset {m m2 m3 : Reg} (h : regScoreMono m m2)
    (hsub : ∀ e ∈ m3, e ∈ m2) : regScoreMono m m3 :=
  fun k s0 hk p hp s2 hs2 => h k s0 hk p hp s2 (hsub (k, s2) hs2)

lemma mem_mapSet_self (m : Reg) (k : String) (v : GameSession) :
    (k, v) ∈ mapSet m k v := by
  unfold mapSet
  split
  · rename_i hany
    rcases List.any_eq_true.mp hany with ⟨e, he, hek⟩
    exact List.mem_map.mpr ⟨e, he, by simp [show e.1 = k by simpa using hek]⟩
  · exact List.mem_append.mpr (Or.inr (by simp))

lemma mapSet_mapSet (m : Reg) (k : String) (v v2 : GameSession) :
    mapSet (mapSet m k v) k v2 = mapSet m k v2 := by
  by_cases hp : m.any (fun e => e.1 == k) = true
  · have hp2 : (mapSet m k v).any (fun e => e.1 == k) = true :=
      List.any_eq_true.mpr ⟨(k, v), mem_mapSet_self m k v, by simp⟩
    rw [mapSet_eq_map hp2, mapSet_eq_map hp, mapSet_eq_map hp, List.map_map]
    apply List.map_congr_left
    intro e _
    by_cases hek : e.1 = k <;> simp [hek]
  · have hall : ∀ e ∈ m, ¬ e.1 = k := by
      intro e he hek
      exact hp (List.any_eq_true.mpr ⟨e, he, by simp [hek]⟩)
    have hp2 : (m ++ [(k, v)]).any (fun e => e.1 == k) = true :=
      List.any_eq_true.mpr ⟨(k, v), by simp, by simp⟩
    rw [mapSet_eq_append hp, mapSet_eq_map hp2, mapSet_eq_append hp, List.map_append]
    have h1 : m.map (fun e => if e.1 == k then (k, v2) else e) = m.map id :=
      List.map_congr_left (fun e he => by simp [hall e he])
    rw [h1, List.map_id]
    simp

lemma writeback_ok {m : Reg} (hm : RegWF m) {s v : GameSession}
    (hmem : ∃ k, (k, s) ∈ m)
    (hcode : v.gameCode = s.gameCode)
    (hadm : v.adminSocketId = s.adminSocketId)
    (hv : SessWF v)
    (hmono : ∀ p ∈ s.players, ∀ p2 ∈ v.players, p2.id = p.id → p.score ≤ p2.score) :
    RegWF (mapSet m v.gameCode v) ∧ regScoreMono m (mapSet m v.gameCode v) := by
  obtain ⟨k0, hk0⟩ := hmem
  obtain ⟨hkc, hmem2⟩ := lookup_entry_code hm hk0
  constructor
  · apply RegWF_mapSet_writeback hm hv
    · intro e he hek
      have heq : e = (s.gameCode, s) := key_unique hm.1 he hmem2 (by rw [hek, hcode])
      rw [heq, hadm]
    · rw [hcode]
      exact key_present_of_mem hmem2
  · intro k s0 hk p hp s2 hs2 p2 hp2 hpe
    rcases mem_mapSet hs2 with ⟨hold, -⟩ | heq
    · have hs02 : s0 = s2 := congrArg Prod.snd (key_unique hm.1 hk hold rfl)
      subst hs02
      have hnd := (hm.2.2.1 (k, s0) hk).2.2.2
      rw [players_unique hnd hp2 hp hpe]
    · have hk2 : k = v.gameCode := congrArg Prod.fst heq
      have hs2v : s2 = v := congrArg Prod.snd heq
      subst hs2v
      have hs0 : s0 = s :=
        congrArg Prod.snd (key_unique hm.1 hk hmem2 (by rw [hk2, hcode]))
      subst hs0
      exact hmono p hp p2 hp2 hpe

lemma create_ok {m : Reg} (hm : RegWF m) {v : GameSession} (hv : SessWF v)
    (hempty : v.players = []) (hadm : adminCount m v.adminSocketId = 0) :
    RegWF (mapSet m v.gameCode v) ∧ regScoreMono m (mapSet m v.gameCode v) := by
  refine ⟨RegWF_mapSet_newAdmin hm hv hadm, ?_⟩
  intro k s0 hk p hp s2 hs2 p2 hp2 hpe
  rcases mem_mapSet hs2 with ⟨hold, -⟩ | heq
  · have hs02 : s0 = s2 := congrArg Prod.snd (key_unique hm.1 hk hold rfl)
    subst hs02
    have hnd := (hm.2.2.1 (k, s0) hk).2.2.2
    rw [players_unique hnd hp2 hp hpe]
  · have hs2v : s2 = v := congrArg Prod.snd heq
    subst hs2v
    rw [hempty] at hp2
    exact absurd hp2 (List.not_mem_nil p2)

lemma regFind?_some {m : Reg} {pred : String × GameSession → Bool} {s : GameSession}
    (h : (m.find? pred).map (fun e => e.2) = some s) : ∃ k, (k, s) ∈ m := by
  cases hh : m.find? pred with
  | none =>
    rw [hh] at h
    simp at h
  | some e =>
    rw [hh] at h
    simp only [Option.map_some', Option.some.injEq] at h
    subst h
    exact ⟨e.1, List.mem_of_find?_eq_some hh⟩

lemma SessWF_make {db : Db} {code : String} {quizId : Nat} {admin : String}
    {sid : Nat} {s : GameSession}
    (h : GameSession.make db code quizId admin sid = .ok s) :
    SessWF s ∧ s.gameCode = code ∧ s.adminSocketId = admin ∧ s.players = []
    ∧ s.status = GameStatus.waiting := by
  unfold GameSession.make at h
  cases hq : db.quizzes.find? (fun q => q.id == quizId) with
  | none =>
    rw [hq] at h
    exact absurd h (by simp)
  | some quiz =>
    rw [hq] at h
    dsimp only at h
    by_cases hlen : ((List.insertionSort (fun (a b : QuestionRow) =>
        a.order_index ≤ b.order_index)
        (db.questions.filter (fun q => q.quiz_id == quizId))).length == 0) = true
    · rw [if_pos hlen] at h
      exact absurd h (by simp)
    · rw [if_neg hlen] at h
      simp only [Except.ok.injEq] at h
      subst h
      refine ⟨⟨by norm_num, rfl, fun _ p hp => absurd hp (List.not_mem_nil p),
        List.nodup_nil⟩, rfl, rfl, rfl, rfl⟩

lemma submitAnswer_true_eq {s : GameSession} {sid : String} {oid : Int} {now : Nat}
    {s2 : GameSession} (h : s.submitAnswer sid oid now = (s2, true)) :
    s2 = { s with players := s.players.map (fun q => if q.id == sid then
        { q with currentAnswer := some oid, answerTimestamp := some now } else q) }
    ∧ s.status = GameStatus.question := by
  by_cases hst : s.status = GameStatus.question
  · cases hf : s.players.find? (fun q => q.id == sid) with
    | none =>
      rw [submitAnswer_no_player hst hf] at h
      exact absurd h (by simp)
    | some p =>
      by_cases hans : p.currentAnswer = none
      · rw [submitAnswer_accepted hst hf hans] at h
        have := (Prod.mk.injEq _ _ _ _).mp h
        exact ⟨this.1.symm, hst⟩
      · rw [submitAnswer_answered hst hf hans] at h
        exact absurd h (by simp)
  · rw [submitAnswer_not_question hst] at h
    exact absurd h (by simp)

/-- One roster evolves into another when every surviving player derives
from a player with the same id whose score was at most as large. -/
def playersEvolve (l1 l2 : List Player) : Prop :=
  ∀ p2 ∈ l2, ∃ p1 ∈ l1, p1.id = p2.id ∧ p1.score ≤ p2.score

lemma playersEvolve_refl (l : List Player) : playersEvolve l l :=
  fun p2 h => ⟨p2, h, rfl, Nat.le_refl _⟩

lemma playersEvolve_trans {l1 l2 l3 : List Player} (h12 : playersEvolve l1 l2)
    (h23 : playersEvolve l2 l3) : playersEvolve l1 l3 := by
  intro p3 hp3
  obtain ⟨p2, hp2, hid2, hsc2⟩ := h23 p3 hp3
  obtain ⟨p1, hp1, hid1, hsc1⟩ := h12 p2 hp2
  exact ⟨p1, hp1, hid1.trans hid2, hsc1.trans hsc2⟩

lemma playersEvolve_map (l : List Player) (f : Player → Player)
    (hid : ∀ p, (f p).id = p.id) (hsc : ∀ p, p.score ≤ (f p).score) :
    playersEvolve l (l.map f) := by
  intro p2 hp2
  rcases List.mem_map.mp hp2 with ⟨p0, hp0, rfl⟩
  exact ⟨p0, hp0, (hid p0).symm, hsc p0⟩

lemma playersEvolve_sub {l l2 : List Player} (hsub : ∀ p ∈ l2, p ∈ l) :
    playersEvolve l l2 :=
  fun p2 h => ⟨p2, hsub p2 h, rfl, Nat.le_refl _⟩

lemma playersEvolve_mono {l l2 : List Player} (hnd : (l.map (fun p => p.id)).Nodup)
    (he : playersEvolve l l2) :
    ∀ p ∈ l, ∀ p2 ∈ l2, p2.id = p.id → p.score ≤ p2.score := by
  intro p hp p2 hp2 hpe
  obtain ⟨p1, hp1, hid, hsc⟩ := he p2 hp2
  have heq : p1 = p := players_unique hnd hp1 hp (by rw [hid, hpe])
  subst heq
  exact hsc

lemma removeGameW_reg_cases (w : World) (code : String) :
    (removeGameW w code).reg = w.reg ∨
    (removeGameW w code).reg = w.reg.filter (fun e => !(e.1 == code)) := by
  unfold removeGameW
  cases hg : getGameR w.reg code with
  | none => exact Or.inl rfl
  | some g => exact Or.inr rfl

lemma writeback_then_remove_sound (w : World) (hm : RegWF w.reg) {s v : GameSession}
    (hmem : ∃ k, (k, s) ∈ w.reg) (hcode : v.gameCode = s.gameCode)
    (hadm : v.adminSocketId = s.adminSocketId) (hv : SessWF v)
    (hmono : ∀ p ∈ s.players, ∀ p2 ∈ v.players, p2.id = p.id → p.score ≤ p2.score)
    (code2 : String) :
    RegWF (removeGameW { w with reg := mapSet w.reg v.gameCode v } code2).reg
    ∧ regScoreMono w.reg
        (removeGameW { w with reg := mapSet w.reg v.gameCode v } code2).reg := by
  obtain ⟨hwf2, hmono2⟩ := writeback_ok hm hmem hcode hadm hv hmono
  rcases removeGameW_reg_cases { w with reg := mapSet w.reg v.gameCode v } code2 with hr | hr <;>
    rw [hr]
  · exact ⟨hwf2, hmono2⟩
  · exact ⟨RegWF_filter hwf2 _,
      regScoreMono_subset hmono2 (fun e he => List.mem_of_mem_filter he)⟩

lemma endQuestion_leaderboard_facts (s2 : GameSession) (timers : List (Nat × Nat))
    (hswf2 : SessWF s2) :
    SessWF ({ (s2.endQuestion timers).1.1 with status := GameStatus.leaderboard })
    ∧ ({ (s2.endQuestion timers).1.1 with
          status := GameStatus.leaderboard } : GameSession).gameCode = s2.gameCode
    ∧ ({ (s2.endQuestion timers).1.1 with
          status := GameStatus.leaderboard } : GameSession).adminSocketId = s2.adminSocketId
    ∧ playersEvolve s2.players ({ (s2.endQuestion timers).1.1 with
          status := GameStatus.leaderboard } : GameSession).players := by
  obtain ⟨hg1, hg2, hg3, hg4, hg5, hg6⟩ := endQuestion_fst_fields s2 timers
  have hevo : playersEvolve s2.players (s2.endQuestion timers).1.1.players := by
    rcases hg6 with h6 | ⟨cid, h6⟩
    · rw [h6]
      exact playersEvolve_refl _
    · rw [h6]
      exact playersEvolve_map _ _ (fun p => rfl) (fun p => Nat.le_add_right _ _)
  have hnd : ((s2.endQuestion timers).1.1.players.map (fun p => p.id)).Nodup := by
    rcases hg6 with h6 | ⟨cid, h6⟩
    · rw [h6]
      exact hswf2.2.2.2
    · rw [h6]
      exact nodupIds_map hswf2.2.2.2 _ (fun p => rfl)
  refine ⟨⟨?_, ?_, ?_, ?_⟩, ?_, ?_, ?_⟩
  · show -1 ≤ (s2.endQuestion timers).1.1.currentQuestionIndex
    rw [hg5]
    exact hswf2.1
  · show (s2.endQuestion timers).1.1.questions.length =
      (s2.endQuestion timers).1.1.totalQuestions
    rw [hg3, hg4]
    exact hswf2.2.1
  · intro hw
    have hw2 : GameStatus.leaderboard = GameStatus.waiting := hw
    exact absurd hw2 (by decide)
  · exact hnd
  · exact hg1
  · exact hg2
  · exact hevo

lemma advance_branch_facts {s : GameSession} (hwfs : SessWF s) {now : Nat}
    {s2 : GameSession} {r : Option QuestionPayload}
    (hsn : s.startNextQuestion now = (s2, r)) :
    s2.gameCode = s.gameCode ∧ s2.adminSocketId = s.adminSocketId ∧ SessWF s2
    ∧ playersEvolve s.players s2.players := by
  have hcs := startNextQuestion_cases s now
  rw [hsn] at hcs
  rcases hcs with ⟨h1, -⟩ | h1
  · have hs2 : s2 = _ := h1
    subst hs2
    refine ⟨rfl, rfl, ⟨?_, hwfs.2.1, ?_, hwfs.2.2.2⟩, playersEvolve_refl _⟩
    · show -1 ≤ s.currentQuestionIndex + 1
      have := hwfs.1
      omega
    · intro hw
      exact hwfs.2.2.1 hw
  · have hs2 : s2 = _ := h1
    subst hs2
    refine ⟨rfl, rfl, ⟨?_, hwfs.2.1, ?_,
        nodupIds_map hwfs.2.2.2 _ (fun p => rfl)⟩,
      playersEvolve_map _ _ (fun p => rfl) (fun p => Nat.le_refl _)⟩
    · show -1 ≤ s.currentQuestionIndex + 1
      have := hwfs.1
      omega
    · intro hw
      exact absurd (show GameStatus.question = GameStatus.waiting from hw) (by decide)

lemma create_sound (db : Db) (w : World) (hm : RegWF w.reg) (ht tv : Bool)
    (q : Nat) (sid code : String) :
    RegWF (createGameHandlerW db w ht tv q sid code).1.reg
    ∧ regScoreMono w.reg (createGameHandlerW db w ht tv q sid code).1.reg := by
  unfold createGameHandlerW
  cases ht with
  | false => exact ⟨hm, regScoreMono_refl hm⟩
  | true =>
    cases tv with
    | false => exact ⟨hm, regScoreMono_refl hm⟩
    | true =>
      cases hga : getGameByAdminSocketR w.reg sid with
      | some g => exact ⟨hm, regScoreMono_refl hm⟩
      | none =>
        cases hmk : GameSession.make db code q sid w.nextSid with
        | error e =>
          have hcg : createGame db code q sid w.nextSid w.reg = (w.reg, .error e) := by
            unfold createGame
            rw [hmk]
          rw [hcg]
          exact ⟨hm, regScoreMono_refl hm⟩
        | ok s =>
          have hcg : createGame db code q sid w.nextSid w.reg =
              (mapSet w.reg s.gameCode s, .ok s) := by
            unfold createGame
            rw [hmk]
          rw [hcg]
          obtain ⟨hv, hcode, hadmin, hplayers, hstw⟩ := SessWF_make hmk
          have hcnt : adminCount w.reg s.adminSocketId = 0 := by
            rw [hadmin]
            exact getGameByAdminSocketR_none hga
          exact create_ok hm hv hplayers hcnt

lemma join_sound (w : World) (hm : RegWF w.reg) (sid gc u : String) :
    RegWF (joinGameHandlerW w sid gc u).reg
    ∧ regScoreMono w.reg (joinGameHandlerW w sid gc u).reg := by
  simp only [joinGameHandlerW]
  cases hg : getGameR w.reg (jsUpper gc) with
  | none => exact ⟨hm, regScoreMono_refl hm⟩
  | some s =>
    simp only []
    cases hap : s.addPlayer sid u with
    | error e => exact ⟨hm, regScoreMono_refl hm⟩
    | ok pr =>
      obtain ⟨s2, p⟩ := pr
      obtain ⟨hst, hs2⟩ := addPlayer_ok hap
      have hmem := getGameR_some hg
      have hwfs := hm.2.2.1 _ hmem
      have hz : ∀ p0 ∈ s.players, p0.score = 0 := hwfs.2.2.1 hst
      have hv : SessWF s2 := by
        rw [hs2]
        refine ⟨hwfs.1, hwfs.2.1, ?_, nodupIds_playersSet hwfs.2.2.2⟩
        intro _ p0 hp0
        rcases mem_playersSet hp0 with hin | rfl
        · exact hz p0 hin
        · rfl
      have hmono : ∀ p0 ∈ s.players, ∀ p2 ∈ s2.players, p2.id = p0.id →
          p0.score ≤ p2.score := by
        rw [hs2]
        exact score_mono_playersSet s.players _ hz
      have hcode : s2.gameCode = s.gameCode := by rw [hs2]
      have hadm : s2.adminSocketId = s.adminSocketId := by rw [hs2]
      exact writeback_ok hm ⟨_, hmem⟩ hcode hadm hv hmono

lemma start_sound (w : World) (hm : RegWF w.reg) (sid : String) (now : Nat) :
    RegWF (startGameHandlerW w sid now).reg
    ∧ regScoreMono w.reg (startGameHandlerW w sid now).reg := by
  unfold startGameHandlerW
  cases hga : getGameByAdminSocketR w.reg sid with
  | none => exact ⟨hm, regScoreMono_refl hm⟩
  | some s =>
    simp only []
    obtain ⟨⟨k0, hk0⟩, -⟩ := getGameByAdminSocketR_some hga
    have hwfs := hm.2.2.1 _ hk0
    by_cases hpl : (s.players.length == 0) = true
    · rw [if_pos hpl]
      exact ⟨hm, regScoreMono_refl hm⟩
    · rw [if_neg hpl]
      cases hsn : s.startNextQuestion now with
      | mk s2 r =>
        obtain ⟨hcode, hadm, hswf2, hevo⟩ := advance_branch_facts hwfs hsn
        have hmono := playersEvolve_mono hwfs.2.2.2 hevo
        cases r with
        | none => exact writeback_ok hm ⟨k0, hk0⟩ hcode hadm hswf2 hmono
        | some pl =>
          show RegWF (handleQuestion { w with reg := mapSet w.reg s2.gameCode s2 } s2).reg
            ∧ regScoreMono w.reg
                (handleQuestion { w with reg := mapSet w.reg s2.gameCode s2 } s2).reg
          have hre : (handleQuestion { w with reg := mapSet w.reg s2.gameCode s2 } s2).reg =
              mapSet w.reg s2.gameCode { s2 with questionTimer := some w.nextTimerId } := by
            show mapSet (mapSet w.reg s2.gameCode s2) s2.gameCode
              { s2 with questionTimer := some w.nextTimerId } = _
            rw [mapSet_mapSet]
          rw [hre]
          exact @writeback_ok w.reg hm s { s2 with questionTimer := some w.nextTimerId }
            ⟨k0, hk0⟩ hcode hadm hswf2 hmono

lemma next_sound (w : World) (hm : RegWF w.reg) (sid : String) (now : Nat) :
    RegWF (nextQuestionHandlerW w sid now).reg
    ∧ regScoreMono w.reg (nextQuestionHandlerW w sid now).reg := by
  simp only [nextQuestionHandlerW]
  cases hga : getGameByAdminSocketR w.reg sid with
  | none => exact ⟨hm, regScoreMono_refl hm⟩
  | some s =>
    simp only []
    obtain ⟨⟨k0, hk0⟩, -⟩ := getGameByAdminSocketR_some hga
    have hwfs := hm.2.2.1 _ hk0
    by_cases hlast : s.isLastQuestion = true
    · rw [if_pos hlast]
      have hv : SessWF { s with status := GameStatus.finished } :=
        ⟨hwfs.1, hwfs.2.1,
          fun hw => absurd (show GameStatus.finished = GameStatus.waiting from hw)
            (by decide),
          hwfs.2.2.2⟩
      exact @writeback_then_remove_sound w hm s { s with status := GameStatus.finished }
        ⟨k0, hk0⟩ rfl rfl hv
        (playersEvolve_mono hwfs.2.2.2 (playersEvolve_refl _)) _
    · rw [if_neg hlast]
      cases hsn : s.startNextQuestion now with
      | mk s2 r =>
        obtain ⟨hcode, hadm, hswf2, hevo⟩ := advance_branch_facts hwfs hsn
        have hmono := playersEvolve_mono hwfs.2.2.2 hevo
        cases r with
        | none => exact writeback_ok hm ⟨k0, hk0⟩ hcode hadm hswf2 hmono
        | some pl =>
          show RegWF (handleQuestion { w with reg := mapSet w.reg s2.gameCode s2 } s2).reg
            ∧ regScoreMono w.reg
                (handleQuestion { w with reg := mapSet w.reg s2.gameCode s2 } s2).reg
          have hre : (handleQuestion { w with reg := mapSet w.reg s2.gameCode s2 } s2).reg =
              mapSet w.reg s2.gameCode { s2 with questionTimer := some w.nextTimerId } := by
            show mapSet (mapSet w.reg s2.gameCode s2) s2.gameCode
              { s2 with questionTimer := some w.nextTimerId } = _
            rw [mapSet_mapSet]
          rw [hre]
          exact @writeback_ok w.reg hm s { s2 with questionTimer := some w.nextTimerId }
            ⟨k0, hk0⟩ hcode hadm hswf2 hmono

lemma endGame_sound (w : World) (hm : RegWF w.reg) (sid : String) :
    RegWF (endGameHandlerW w sid).reg
    ∧ regScoreMono w.reg (endGameHandlerW w sid).reg := by
  simp only [endGameHandlerW]
  cases hga : getGameByAdminSocketR w.reg sid with
  | none => exact ⟨hm, regScoreMono_refl hm⟩
  | some s =>
    simp only []
    obtain ⟨⟨k0, hk0⟩, -⟩ := getGameByAdminSocketR_some hga
    have hwfs := hm.2.2.1 _ hk0
    have hv : SessWF { s with status := GameStatus.finished } :=
      ⟨hwfs.1, hwfs.2.1,
        fun hw => absurd (show GameStatus.finished = GameStatus.waiting from hw)
          (by decide),
        hwfs.2.2.2⟩
    exact @writeback_then_remove_sound w hm s { s with status := GameStatus.finished }
      ⟨k0, hk0⟩ rfl rfl hv
      (playersEvolve_mono hwfs.2.2.2 (playersEvolve_refl _)) _

lemma disconnect_sound (w : World) (hm : RegWF w.reg) (sid : String) :
    RegWF (disconnectHandlerW w sid).reg
    ∧ regScoreMono w.reg (disconnectHandlerW w sid).reg := by
  simp only [disconnectHandlerW]
  cases hga : getGameByAdminSocketR w.reg sid with
  | some s =>
    simp only []
    obtain ⟨⟨k0, hk0⟩, -⟩ := getGameByAdminSocketR_some hga
    have hwfs := hm.2.2.1 _ hk0
    have hv : SessWF { s with status := GameStatus.finished } :=
      ⟨hwfs.1, hwfs.2.1,
        fun hw => absurd (show GameStatus.finished = GameStatus.waiting from hw)
          (by decide),
        hwfs.2.2.2⟩
    exact @writeback_then_remove_sound w hm s { s with status := GameStatus.finished }
      ⟨k0, hk0⟩ rfl rfl hv
      (playersEvolve_mono hwfs.2.2.2 (playersEvolve_refl _)) _
  | none =>
    simp only []
    cases hgp : getGameByPlayerSocketR w.reg sid with
    | none => exact ⟨hm, regScoreMono_refl hm⟩
    | some s =>
      obtain ⟨k0, hk0⟩ := getGameByPlayerSocketR_some hgp
      have hwfs := hm.2.2.1 _ hk0
      have hv : SessWF (s.removePlayer sid) := by
        refine ⟨hwfs.1, hwfs.2.1, ?_, ?_⟩
        · intro hw p0 hp0
          exact hwfs.2.2.1 hw p0 (List.mem_of_mem_filter hp0)
        · exact (hwfs.2.2.2).sublist ((List.filter_sublist s.players).map _)
      exact @writeback_ok w.reg hm s (s.removePlayer sid) ⟨k0, hk0⟩ rfl rfl hv
        (playersEvolve_mono hwfs.2.2.2
          (playersEvolve_sub (fun p hp => List.mem_of_mem_filter hp)))

lemma submit_sound (w : World) (hm : RegWF w.reg) (sid : String) (oid : Int)
    (now : Nat) :
    RegWF (submitAnswerHandlerW w sid oid now).reg
    ∧ regScoreMono w.reg (submitAnswerHandlerW w sid oid now).reg := by
  simp only [submitAnswerHandlerW]
  cases hgp : getGameByPlayerSocketR w.reg sid with
  | none => exact ⟨hm, regScoreMono_refl hm⟩
  | some s =>
    simp only []
    obtain ⟨k0, hk0⟩ := getGameByPlayerSocketR_some hgp
    have hwfs := hm.2.2.1 _ hk0
    cases hsa : s.submitAnswer sid oid now with
    | mk s2 b =>
      cases b with
      | false => exact ⟨hm, regScoreMono_refl hm⟩
      | true =>
        simp only []
        obtain ⟨hs2, hstq⟩ := submitAnswer_true_eq hsa
        have hswf2 : SessWF s2 := by
          rw [hs2]
          refine ⟨hwfs.1, hwfs.2.1, ?_,
            nodupIds_map hwfs.2.2.2 _ (fun p => by by_cases h : p.id = sid <;> simp [h])⟩
          intro hw
          exact absurd (hstq.symm.trans hw) (by decide)
        have hcode2 : s2.gameCode = s.gameCode := by rw [hs2]
        have hadm2 : s2.adminSocketId = s.adminSocketId := by rw [hs2]
        have hevo2 : playersEvolve s.players s2.players := by
          rw [hs2]
          exact playersEvolve_map _ _
            (fun p => by by_cases h : p.id = sid <;> simp [h])
            (fun p => by by_cases h : p.id = sid <;> simp [h])
        by_cases hall : s2.allPlayersAnswered = true
        · rw [if_pos hall]
          obtain ⟨hv, hvcode, hvadm, hvevo⟩ :=
            endQuestion_leaderboard_facts s2 w.timers hswf2
          exact writeback_ok hm ⟨k0, hk0⟩ (hvcode.trans hcode2) (hvadm.trans hadm2) hv
            (playersEvolve_mono hwfs.2.2.2 (playersEvolve_trans hevo2 hvevo))
        · rw [if_neg hall]
          exact writeback_ok hm ⟨k0, hk0⟩ hcode2 hadm2 hswf2
            (playersEvolve_mono hwfs.2.2.2 hevo2)

lemma timer_sound (w : World) (hm : RegWF w.reg) (tid : Nat) :
    RegWF (timerFiredHandlerW w tid).reg
    ∧ regScoreMono w.reg (timerFiredHandlerW w tid).reg := by
  simp only [timerFiredHandlerW]
  cases hft : w.timers.find? (fun e => e.1 == tid) with
  | none => exact ⟨hm, regScoreMono_refl hm⟩
  | some entry =>
    simp only []
    cases hfr : (w.reg.find? (fun e => e.2.sid == entry.2)).map (fun e => e.2) with
    | none => exact ⟨hm, regScoreMono_refl hm⟩
    | some s =>
      obtain ⟨k0, hk0⟩ := regFind?_some hfr
      have hwfs := hm.2.2.1 _ hk0
      obtain ⟨hv, hvcode, hvadm, hvevo⟩ :=
        endQuestion_leaderboard_facts s (w.timers.filter (fun e => !(e.1 == tid))) hwfs
      exact writeback_ok hm ⟨k0, hk0⟩ hvcode hvadm hv
        (playersEvolve_mono hwfs.2.2.2 hvevo)

/-- Every event preserves the registry invariant and can only grow the
score a player holds under a given game code. -/
lemma step_sound (db : Db) (w : World) (hm : RegWF w.reg) (ev : Event) :
    RegWF (step db w ev).reg ∧ regScoreMono w.reg (step db w ev).reg := by
  cases ev with
  | create ht tv q sid code => exact create_sound db w hm ht tv q sid code
  | join sid gc u => exact join_sound w hm sid gc u
  | start sid now => exact start_sound w hm sid now
  | submit sid oid now => exact submit_sound w hm sid oid now
  | next sid now => exact next_sound w hm sid now
  | endGameEv sid => exact endGame_sound w hm sid
  | disconnect sid => exact disconnect_sound w hm sid
  | timerFired t => exact timer_sound w hm t

lemma RegWF_empty : RegWF ([] : Reg) := by
  refine ⟨List.nodup_nil, ?_, ?_, ?_⟩
  · intro e he
    exact absurd he (List.not_mem_nil e)
  · intro e he
    exact absurd he (List.not_mem_nil e)
  · intro a
    exact Nat.zero_le 1

lemma run_RegWF (db : Db) (evs : List Event) (w : World) (hm : RegWF w.reg) :
    RegWF (run db w evs).reg := by
  induction evs generalizing w with
  | nil => exact hm
  | cons e evs ih => exact ih (step db w e) (step_sound db w hm e).1

lemma reachable_RegWF {db : Db} {w : World} (h : reachable db w) : RegWF w.reg := by
  obtain ⟨evs, rfl⟩ := h
  exact run_RegWF db evs World.empty RegWF_empty

/-- C4, amended: in every reachable state, every registered session's
current question index is at least −1 (and its loaded question list
matches `totalQuestions`); a run-off `startNextQuestion` returns "no more
questions" without changing the status, but it leaves the index
incremented to a value at least `totalQuestions` — so the claimed upper
bound `totalQuestions − 1` can be exceeded, as the counterexample shows. -/
theorem C4_index_range (db : Db) (w : World) (hw : reachable db w) :
    (∀ e ∈ w.reg, -1 ≤ e.2.currentQuestionIndex)
    ∧ (∀ e ∈ w.reg, e.2.questions.length = e.2.totalQuestions)
    ∧ (∀ (s : GameSession) (now : Nat), -1 ≤ s.currentQuestionIndex →
        s.questions.length = s.totalQuestions →
        (s.startNextQuestion now).2 = none →
        ((s.startNextQuestion now).1.status = s.status
          ∧ (s.startNextQuestion now).1.currentQuestionIndex = s.currentQuestionIndex + 1
          ∧ (s.totalQuestions : Int) ≤ s.currentQuestionIndex + 1)) := by
  have hm := reachable_RegWF hw
  refine ⟨fun e he => (hm.2.2.1 e he).1, fun e he => (hm.2.2.1 e he).2.1, ?_⟩
  intro s now hlo hlen hnone
  by_cases hif : (s.totalQuestions : Int) ≤ s.currentQuestionIndex + 1
  · rw [startNextQuestion_run_off hif]
    exact ⟨rfl, rfl, hif⟩
  · exfalso
    obtain ⟨pl, hpl⟩ := startNextQuestion_some_of_lt s now hlo hlen (by omega)
    rw [hpl] at hnone
    exact absurd hnone (by simp)

def worldC4 : World := run demoDb World.empty evsC4

/-- C4, witness: the amended invariant at a concrete reachable state. -/
theorem C4_witness :
    reachable demoDb worldC4
    ∧ ((∀ e ∈ worldC4.reg, -1 ≤ e.2.currentQuestionIndex)
      ∧ (∀ e ∈ worldC4.reg, e.2.questions.length = e.2.totalQuestions)
      ∧ (∀ (s : GameSession) (now : Nat), -1 ≤ s.currentQuestionIndex →
          s.questions.length = s.totalQuestions →
          (s.startNextQuestion now).2 = none →
          ((s.startNextQuestion now).1.status = s.status
            ∧ (s.startNextQuestion now).1.currentQuestionIndex =
                s.currentQuestionIndex + 1
            ∧ (s.totalQuestions : Int) ≤ s.currentQuestionIndex + 1))) :=
  ⟨⟨evsC4, rfl⟩, C4_index_range demoDb worldC4 ⟨evsC4, rfl⟩⟩

/-- C5: scores are non-negative (they live in ℕ by construction) and
monotonically non-decreasing: across every event, the player who stays
registered under the same game code with the same identity never loses
score; and when a question closes, every incorrect — in particular every
missing — answer is awarded exactly 0 points. -/
theorem C5_scores_monotone (db : Db) (w : World) (hw : reachable db w) (ev : Event) :
    (∀ k s, (k, s) ∈ w.reg → ∀ p ∈ s.players, ∀ s2, (k, s2) ∈ (step db w ev).reg →
      ∀ p2 ∈ s2.players, p2.id = p.id → p.score ≤ p2.score)
    ∧ (∀ (s : GameSession) (timers : List (Nat × Nat)) (res : QuestionEndResult),
        (s.endQuestion timers).2 = some res →
        ∀ pr ∈ res.playerResults, pr.correct = false → pr.points = 0) := by
  constructor
  · exact (step_sound db w (reachable_RegWF hw) ev).2
  · intro s timers res hres pr hpr hcor
    cases hq : listGetI s.questions s.currentQuestionIndex with
    | none =>
      have hn : (s.endQuestion timers).2 = none := by
        simp only [GameSession.endQuestion, clearQuestionTimer_fst, hq]
      rw [hn] at hres
      exact absurd hres (by simp)
    | some q =>
      have hspec := (@endQuestion_spec s timers q hq).1
      have hres2 := Option.some.inj (hres.symm.trans hspec)
      subst hres2
      rcases List.mem_map.mp hpr with ⟨p0, hp0, rfl⟩
      simp only [scoreOnEnd] at hcor ⊢
      rw [hcor]
      simp

def worldC5 : World := run demoDb World.empty evsC10

/-- C5, witness: the monotonicity statement at a concrete reachable state
and a concrete next event. -/
theorem C5_witness :
    reachable demoDb worldC5
    ∧ ((∀ k s, (k, s) ∈ worldC5.reg → ∀ p ∈ s.players, ∀ s2,
          (k, s2) ∈ (step demoDb worldC5 (Event.submit "pb" 101 5000)).reg →
          ∀ p2 ∈ s2.players, p2.id = p.id → p.score ≤ p2.score)
      ∧ (∀ (s : GameSession) (timers : List (Nat × Nat)) (res : QuestionEndResult),
          (s.endQuestion timers).2 = some res →
          ∀ pr ∈ res.playerResults, pr.correct = false → pr.points = 0)) :=
  ⟨⟨evsC10, rfl⟩,
   C5_scores_monotone demoDb worldC5 ⟨evsC10, rfl⟩ (Event.submit "pb" 101 5000)⟩

/-- C8: in every reachable state each admin identity owns at most one
live session, and a create-game request from an admin that already owns a
live session returns that session's game code, creating nothing and
leaving the whole world (registry included) unchanged. -/
theorem C8_one_session_per_admin (db : Db) (w : World) (hw : reachable db w) :
    (∀ a : String, adminCount w.reg a ≤ 1)
    ∧ (∀ (q : Nat) (sid code : String) (g : GameSession),
        getGameByAdminSocketR w.reg sid = some g →
        createGameHandlerW db w true true q sid code = (w, .existing g.gameCode)) := by
  refine ⟨(reachable_RegWF hw).2.2.2, ?_⟩
  intro q sid code g hga
  unfold createGameHandlerW
  rw [hga]
  rfl

def worldC8 : World :=
  run demoDb World.empty [.create true true 1 "admX" "FFFF"]

/-- C8, witness: at a concrete reachable state with one live session, a
repeated creation request from its admin returns the existing code. -/
theorem C8_witness :
    reachable demoDb worldC8
    ∧ ((∀ a : String, adminCount worldC8.reg a ≤ 1)
      ∧ (∀ (q : Nat) (sid code : String) (g : GameSession),
          getGameByAdminSocketR worldC8.reg sid = some g →
          createGameHandlerW demoDb worldC8 true true q sid code =
            (worldC8, .existing g.gameCode))) :=
  ⟨⟨[.create true true 1 "admX" "FFFF"], rfl⟩,
   C8_one_session_per_admin demoDb worldC8 ⟨[.create true true 1 "admX" "FFFF"], rfl⟩⟩
